import Mathlib

/-!
Verification of the facebook_library_ads_scraper core against its design
description.  Each Python function of the repository that a claim touches is
embedded as an executable Lean definition: stateful loops become explicit
state-passing over a schedule of probe responses, fallible browser calls
become `Except`-valued oracles, Python dicts become ordered association
lists, and the regular-expression searches of the date/media utilities are
implemented as faithful character-list scanners.
-/

namespace FBScraper

/-! ## Scroll loop (`BrowserController.scroll_to_bottom_and_get_html`,
src/scrapers/browser_controller.py)

The loop keeps `last_height` and `stall_count`, both initialised to 0.  Each
iteration scrolls, reads the page offset and height, counts the ad elements
(through `count_ad_elements`, which swallows probe errors and returns 0),
reads the new page height, and then: a height increase resets the stall
counter; otherwise the counter is incremented and, while still below
`MAX_STALLS`, alternative load methods run and the height is probed once
more.  Reaching `MAX_STALLS` only resets the counter.  The `while` loop has
no `break`: it stops when the cancellation flag (set by a concurrent
listener) is observed at an iteration boundary, or when an exception escapes
the body, in which case the surrounding `try/except` catches it and the
function still returns `self.sb.get_page_source()`. -/

/-- Error raised by a browser probe call (a Selenium call failing). -/
inductive ProbeErr where
  | fail : String → ProbeErr
deriving DecidableEq, Repr

/-- Loop state of `scroll_to_bottom_and_get_html`: `last_height` and
`stall_count` (src/scrapers/browser_controller.py lines 74-75). -/
structure ScrollState where
  lastHeight : Nat
  stallCount : Nat
deriving DecidableEq, Repr

/-- The probe responses one loop iteration can consume, in call order.
Fields model, in order: the `window.scrollTo` script (line 102), the
`sb.scroll_to_bottom()` call (line 106, wrapped in its own try/except),
`window.pageYOffset` (line 111), `document.body.scrollHeight` (line 112),
the incremental `scrollBy` scripts (lines 115-117), the final `scrollTo`
(line 120), `find_elements` behind `count_ad_elements` (line 124), the new
height read (line 127), and the escalation branch's calls (lines 139-150):
scroll back, scroll to bottom, `try_load_more_content` (internally caught),
`simulate_user_interaction` (uncaught), the re-read height (line 149) and
the re-count (line 150). -/
structure IterProbeE where
  scrollTo1 : Except ProbeErr Unit
  sbScrollToBottom : Except ProbeErr Unit
  pageYOffset : Except ProbeErr Nat
  pageHeightRead : Except ProbeErr Nat
  scrollBys : Except ProbeErr Unit
  scrollTo2 : Except ProbeErr Unit
  findElements : Except ProbeErr Nat
  newHeightRead : Except ProbeErr Nat
  escScrollBack : Except ProbeErr Unit
  escScrollTo : Except ProbeErr Unit
  escLoadMore : Except ProbeErr Unit
  escSimulate : Except ProbeErr Unit
  escHeightRead : Except ProbeErr Nat
  escFindElements : Except ProbeErr Nat

/-- `Config.MAX_STALLS` (src/config.py line 12). -/
def MAX_STALLS : Nat := 3

/-- `BrowserController.count_ad_elements` (lines 14-21): returns the number
of elements matching the ad selector, catching any probe exception and
returning 0 in that case. -/
def countAdElements (probe : Except ProbeErr Nat) : Nat :=
  match probe with
  | .ok n => n
  | .error _ => 0

/-- One iteration of the `while not stop_scrolling` body (lines 98-163).
The `sb.scroll_to_bottom()` call and both `count_ad_elements` calls swallow
their own errors; every other probe failure escapes the iteration.  The
Python test `current_position < page_height - 1000` is the integer
comparison `currentPosition + 1000 < pageHeight`. -/
def scrollIterationE (maxStalls : Nat) (st : ScrollState) (p : IterProbeE) :
    Except ProbeErr ScrollState := do
  let _ ← p.scrollTo1
  let _sbScroll := p.sbScrollToBottom
  let currentPosition ← p.pageYOffset
  let pageHeight ← p.pageHeightRead
  let _ ← if currentPosition + 1000 < pageHeight then p.scrollBys else .ok ()
  let _ ← p.scrollTo2
  let _elementCount := countAdElements p.findElements
  let newHeight ← p.newHeightRead
  let st1 ←
    if st.lastHeight < newHeight then
      pure (ScrollState.mk newHeight 0)
    else
      let stall := st.stallCount + 1
      if stall < maxStalls then do
        let _ ← p.escScrollBack
        let _ ← p.escScrollTo
        let _loadMore := p.escLoadMore
        let _ ← p.escSimulate
        let finalHeight ← p.escHeightRead
        let _finalCount := countAdElements p.escFindElements
        if st.lastHeight < finalHeight then
          pure (ScrollState.mk finalHeight 0)
        else
          pure (ScrollState.mk st.lastHeight stall)
      else
        pure (ScrollState.mk st.lastHeight stall)
  if maxStalls ≤ st1.stallCount then
    pure (ScrollState.mk st1.lastHeight 0)
  else
    pure st1

/-- The loop over a schedule of iterations; the schedule ends where the
cancellation flag is observed.  An iteration error escapes (to be caught by
the function's outer handler). -/
def runBodyE (maxStalls : Nat) : ScrollState → List IterProbeE → Except ProbeErr ScrollState
  | st, [] => .ok st
  | st, p :: rest =>
    match scrollIterationE maxStalls st p with
    | .ok st' => runBodyE maxStalls st' rest
    | .error e => .error e

/-- Number of iterations the loop completes before an error (or before the
cancellation boundary ends the schedule); mirrors `scroll_count` for the
completed iterations. -/
def iterationsCompleted (maxStalls : Nat) : ScrollState → List IterProbeE → Nat
  | _, [] => 0
  | st, p :: rest =>
    match scrollIterationE maxStalls st p with
    | .ok st' => iterationsCompleted maxStalls st' rest + 1
    | .error _ => 0

/-- `scroll_to_bottom_and_get_html` (lines 67-173): the `try` block runs the
initial count (self-caught) and the loop; `KeyboardInterrupt` and any other
`Exception` escaping the loop are caught (lines 165-170), after which the
function returns `self.sb.get_page_source()` — a call outside the `try`,
whose own failure therefore propagates to the caller. -/
def scrollToBottomAndGetHtml (maxStalls : Nat) (initialFind : Except ProbeErr Nat)
    (schedule : List IterProbeE) (pageSource : Except ProbeErr String) :
    Except ProbeErr String :=
  let _initialCount := countAdElements initialFind
  let _body := runBodyE maxStalls (ScrollState.mk 0 0) schedule
  pageSource

/-- An iteration all of whose probe calls succeed, with the given offset,
page height, element count, new height, escalation height and escalation
count. -/
def okProbe (offset pageHeight count newHeight escHeight escCount : Nat) : IterProbeE :=
  ⟨.ok (), .ok (), .ok offset, .ok pageHeight, .ok (), .ok (), .ok count,
    .ok newHeight, .ok (), .ok (), .ok (), .ok (), .ok escHeight, .ok escCount⟩

/-- A probe schedule entry is fully functional when every call succeeds. -/
def ProbeAllOk (p : IterProbeE) : Prop :=
  ∃ offset pageHeight count newHeight escHeight escCount,
    p = okProbe offset pageHeight count newHeight escHeight escCount

/-- Growth sample of the design description: scroll height plus matching
item count (spec §3, §4.2). -/
structure GrowthSample where
  scrollHeight : Nat
  itemCount : Nat
deriving DecidableEq, Repr

/-- Following the spec's words (§4.2), for comparison with the code:
`hasGrown(prev, curr)` is true iff `curr.scrollHeight > prev.scrollHeight`
OR `curr.itemCount > prev.itemCount`. -/
def hasGrownSpec (prev curr : GrowthSample) : Bool :=
  decide (prev.scrollHeight < curr.scrollHeight) || decide (prev.itemCount < curr.itemCount)

/-! ## Adaptive scrolling (`AdaptiveScrollController`, src/new.py lines 295-379)

Wait times are rationals standing for the Python floats; every float
constant of this controller (1.2, 0.9, 8.0, 0.8, 0.95) and every
success-rate comparison the listed counterexample reaches is exact in both
representations. -/

/-- `ScrollMetrics` (src/new.py lines 295-302). -/
structure ScrollMetrics where
  scrollAttempts : Nat
  successfulScrolls : Nat
  averageLoadTime : ℚ
  elementsLoaded : Nat
  lastElementCount : Nat
deriving DecidableEq, Repr

/-- State of `AdaptiveScrollController` (src/new.py lines 308-313):
`base_wait_time`, `current_wait_time`, the metrics, and the
`deque(maxlen=10)` of the last 10 load times. -/
structure AdaptiveState where
  baseWaitTime : ℚ
  currentWaitTime : ℚ
  metrics : ScrollMetrics
  loadTimes : List ℚ
deriving DecidableEq, Repr

/-- `AdaptiveScrollController.__init__` (lines 308-313). -/
def initAdaptive (initialWaitTime : ℚ) : AdaptiveState :=
  ⟨initialWaitTime, initialWaitTime, ⟨0, 0, 0, 0, 0⟩, []⟩

/-- `self.performance_threshold = 0.8` (line 313). -/
def performanceThreshold : ℚ := 4 / 5

/-- Append to a `deque(maxlen=10)`: the oldest entry falls out beyond 10. -/
def dequeAppend10 (l : List ℚ) (x : ℚ) : List ℚ :=
  let l' := l ++ [x]
  l'.drop (l'.length - 10)

/-- `AdaptiveScrollController._update_metrics` (lines 340-350). -/
def updateMetrics (s : AdaptiveState) (initialCount finalCount : Nat) (loadTime : ℚ) :
    AdaptiveState :=
  let m := s.metrics
  let m := { m with scrollAttempts := m.scrollAttempts + 1 }
  let m :=
    if initialCount < finalCount then
      { m with
        successfulScrolls := m.successfulScrolls + 1
        elementsLoaded := m.elementsLoaded + (finalCount - initialCount) }
    else m
  let lt := dequeAppend10 s.loadTimes loadTime
  let m := { m with
    averageLoadTime := lt.sum / (lt.length : ℚ)
    lastElementCount := finalCount }
  { s with metrics := m, loadTimes := lt }

/-- `AdaptiveScrollController._adjust_timing` (lines 352-364): the success
rate is `successful_scrolls / max(1, scroll_attempts)` over the whole life
of the controller; below the threshold the wait is multiplied by 1.2 and
capped at 8.0, above 0.95 (and only while above the base wait) it is
multiplied by 0.9 and floored at the base wait. -/
def adjustTiming (s : AdaptiveState) : AdaptiveState :=
  let successRate : ℚ :=
    (s.metrics.successfulScrolls : ℚ) / max 1 (s.metrics.scrollAttempts : ℚ)
  if successRate < performanceThreshold then
    { s with currentWaitTime := min (s.currentWaitTime * (6 / 5)) 8 }
  else if 19 / 20 < successRate ∧ s.baseWaitTime < s.currentWaitTime then
    { s with currentWaitTime := max (s.currentWaitTime * (9 / 10)) s.baseWaitTime }
  else s

/-- `AdaptiveScrollController.adaptive_scroll_and_wait` (lines 315-338),
with the element counts before and after the scroll and the measured load
time supplied by the environment: updates the metrics, adjusts the timing,
and reports whether new content loaded. -/
def adaptiveScrollAndWait (s : AdaptiveState) (initialCount finalCount : Nat) (loadTime : ℚ) :
    AdaptiveState × Bool :=
  let s1 := updateMetrics s initialCount finalCount loadTime
  let s2 := adjustTiming s1
  (s2, decide (initialCount < finalCount))

/-- Run the controller over a list of observed scroll attempts
`(initialCount, finalCount, loadTime)`. -/
def runAdaptive (initialWaitTime : ℚ) (obs : List (Nat × Nat × ℚ)) : AdaptiveState :=
  obs.foldl (fun s o => (adaptiveScrollAndWait s o.1 o.2.1 o.2.2).1) (initAdaptive initialWaitTime)

/-- Following the spec's words (§4.1), for comparison with the code: the
success rate over the last 10 attempts of a run, each attempt recorded as
`(initialCount, finalCount, loadTime)` and successful when the count grew. -/
def rollingSuccessRate (obs : List (Nat × Nat × ℚ)) : ℚ :=
  let last10 := obs.drop (obs.length - 10)
  ((last10.filter (fun o => decide (o.1 < o.2.1))).length : ℚ) / (last10.length : ℚ)

/-- A failed scroll attempt (no new elements) taking one second. -/
def obsFail : Nat × Nat × ℚ := (0, 0, 1)

/-- A successful scroll attempt (one new element) taking one second. -/
def obsSucc : Nat × Nat × ℚ := (0, 1, 1)

/-- Twenty attempts: ten failures followed by ten successes. -/
def obs20 : List (Nat × Nat × ℚ) :=
  List.replicate 10 obsFail ++ List.replicate 10 obsSucc

/-! ## Date utilities (src/utils/date_utils.py)

The regular-expression searches are implemented as character-list scanners
with the same leftmost-match and backtracking behaviour (the inputs are
ASCII, where Python's `\d`, `\s`, `\w` coincide with the classes below). -/

/-- Python regex class `\d` on ASCII input. -/
def isDigitC (c : Char) : Bool := c.isDigit

/-- Lower-case a character, modelling Python `str.lower()` on ASCII text. -/
def lowerC (c : Char) : Char := c.toLower

/-- Prefix test on character lists (Python `str.startswith` at a position);
recursing on the pattern first so that it evaluates even when the subject's
tail is symbolic. -/
def isPrefixOfC : List Char → List Char → Bool
  | [], _ => true
  | _ :: _, [] => false
  | c :: cs, d :: ds => c == d && isPrefixOfC cs ds

/-- Python regex class `\s` on ASCII input. -/
def isSpaceC (c : Char) : Bool :=
  c = ' ' || c = '\t' || c = '\n' || c = '\r' || c = '\x0b' || c = '\x0c'

/-- Python regex class `\w` on ASCII input. -/
def isWordC (c : Char) : Bool := c.isAlphanum || c = '_'

/-- Value of a run of decimal digits, as Python `int()`. -/
def digitsToNat (ds : List Char) : Nat :=
  ds.foldl (fun a c => a * 10 + (c.toNat - '0'.toNat)) 0

/-- Match `(\d+)\s*(?:alt₁|alt₂|…)` at the head of `cs`: a nonempty digit
run, greedy whitespace, then one of the alternative unit words. -/
def matchNumUnitAt (cs : List Char) (alts : List (List Char)) : Option Nat :=
  let ds := cs.takeWhile isDigitC
  if ds.isEmpty then none
  else
    let rest := (cs.drop ds.length).dropWhile isSpaceC
    if alts.any (fun a => isPrefixOfC a rest) then some (digitsToNat ds) else none

/-- `re.search` for `(\d+)\s*(?:alt₁|…)`: leftmost match wins. -/
def searchNumUnit : List Char → List (List Char) → Option Nat
  | [], _ => none
  | c :: rest, alts =>
    match matchNumUnitAt (c :: rest) alts with
    | some n => some n
    | none => searchNumUnit rest alts

/-- `parse_duration_to_seconds` (src/utils/date_utils.py lines 8-33): the
lower-cased text is searched independently for day, hour, minute and second
quantities, each optional and contributing zero when absent, and the
contributions are accumulated into `total_seconds`. -/
def parse_duration_to_seconds (durationStr : String) : Nat :=
  let cs := durationStr.data.map lowerC
  let totalSeconds := 0
  let totalSeconds := totalSeconds +
    (match searchNumUnit cs ["day".data, "days".data] with
     | some n => n * 24 * 3600
     | none => 0)
  let totalSeconds := totalSeconds +
    (match searchNumUnit cs ["hr".data, "hrs".data, "hour".data, "hours".data] with
     | some n => n * 3600
     | none => 0)
  let totalSeconds := totalSeconds +
    (match searchNumUnit cs ["min".data, "mins".data, "minute".data, "minutes".data] with
     | some n => n * 60
     | none => 0)
  let totalSeconds := totalSeconds +
    (match searchNumUnit cs ["sec".data, "secs".data, "second".data, "seconds".data] with
     | some n => n
     | none => 0)
  totalSeconds

/-- The independent day contribution of the duration text, in seconds. -/
def daysContribution (durationStr : String) : Nat :=
  (searchNumUnit (durationStr.data.map lowerC) ["day".data, "days".data]).getD 0 * 86400

/-- The independent hour contribution of the duration text, in seconds. -/
def hoursContribution (durationStr : String) : Nat :=
  (searchNumUnit (durationStr.data.map lowerC)
    ["hr".data, "hrs".data, "hour".data, "hours".data]).getD 0 * 3600

/-- The independent minute contribution of the duration text, in seconds. -/
def minutesContribution (durationStr : String) : Nat :=
  (searchNumUnit (durationStr.data.map lowerC)
    ["min".data, "mins".data, "minute".data, "minutes".data]).getD 0 * 60

/-- The independent second contribution of the duration text, in seconds. -/
def secondsContribution (durationStr : String) : Nat :=
  (searchNumUnit (durationStr.data.map lowerC)
    ["sec".data, "secs".data, "second".data, "seconds".data]).getD 0

/-- Match `\s+`: at least one whitespace character, greedily; returns the
count consumed (the following regex atoms of the callers start with classes
disjoint from whitespace, so maximal munch is exact). -/
def spacesLen1 (cs : List Char) : Option Nat :=
  let n := (cs.takeWhile isSpaceC).length
  if n = 0 then none else some n

/-- Match `\d{4}` at the head. -/
def fourDigitsAt (cs : List Char) : Bool :=
  decide ((cs.take 4).length = 4) && (cs.take 4).all isDigitC

/-- Match `\s+\d{4}` at the head; returns the length consumed. -/
def dateTailLen (cs : List Char) : Option Nat :=
  match spacesLen1 cs with
  | none => none
  | some sn => if fourDigitsAt (cs.drop sn) then some (sn + 4) else none

/-- Backtracking for the greedy `\w+` of the start-date group: `cs` points
at the word run; lengths are tried from the full run down to one character,
each followed by `\s+\d{4}`.  Returns the total length consumed from `cs`. -/
def tryWordLens (cs : List Char) : Nat → Option Nat
  | 0 => none
  | k + 1 =>
    match dateTailLen (cs.drop (k + 1)) with
    | some t => some (k + 1 + t)
    | none => tryWordLens cs k

/-- Match `\d{n}\s+\w+\s+\d{4}` at the head (the `\d{1,2}` of the pattern
fixed to `n` digits); returns the length matched. -/
def matchDateDigits (cs : List Char) (n : Nat) : Option Nat :=
  if decide ((cs.take n).length = n) && (cs.take n).all isDigitC then
    let r1 := cs.drop n
    match spacesLen1 r1 with
    | none => none
    | some sn =>
      let r2 := r1.drop sn
      let wrun := (r2.takeWhile isWordC).length
      match tryWordLens r2 wrun with
      | some wt => some (n + sn + wt)
      | none => none
  else none

/-- Match the capture group `(\d{1,2}\s+\w+\s+\d{4})` at the head: the
greedy `\d{1,2}` tries two digits before one. -/
def matchDateGroupLen (cs : List Char) : Option Nat :=
  match matchDateDigits cs 2 with
  | some n => some n
  | none => matchDateDigits cs 1

/-- `re.search(r'Started running on\s+(\d{1,2}\s+\w+\s+\d{4})', text)`:
scan left to right for the literal, then `\s+`, then the date group; on a
partial failure the scan advances one character, as `re.search` does.
Returns the captured group. -/
def searchStartedRunningL : List Char → Option (List Char)
  | [] => none
  | c :: rest =>
    let cs := c :: rest
    if isPrefixOfC "Started running on".data cs then
      let r1 := cs.drop "Started running on".data.length
      match spacesLen1 r1 with
      | some sn =>
        let r2 := r1.drop sn
        match matchDateGroupLen r2 with
        | some gl => some (r2.take gl)
        | none => searchStartedRunningL rest
      | none => searchStartedRunningL rest
    else searchStartedRunningL rest

/-- String wrapper of `searchStartedRunningL`. -/
def searchStartedRunning (s : String) : Option String :=
  (searchStartedRunningL s.data).map (fun l => String.mk l)

/-- Python `$` without `re.MULTILINE`: end of string, or just before a
final newline. -/
def endAnchor (cs : List Char) : Bool :=
  cs.isEmpty || cs = ['\n']

/-- Match `(?:\s*$|Â·)` at the head: greedy whitespace followed by the end
anchor, or the two-character literal `Â·` (the mojibake of `·` hard-coded
in the pattern). -/
def closeGroupAt (cs : List Char) : Bool :=
  endAnchor (cs.dropWhile isSpaceC) || isPrefixOfC "Â·".data cs

/-- Lazy `(.+?)` followed by `(?:\s*$|Â·)`: the smallest nonempty prefix of
non-newline characters after which the closing pattern matches. -/
def findLazyGroup (cs : List Char) : Option Nat :=
  (List.range cs.length).findSome? (fun i =>
    let g := i + 1
    if ((cs.take g).all (fun c => c != '\n')) && closeGroupAt (cs.drop g) then some g
    else none)

/-- Backtracking for the greedy `\s+` before the lazy group: space counts
are tried from the maximal run down to one. -/
def trySpaceLens (r1 : List Char) : Nat → Option (List Char)
  | 0 => none
  | k + 1 =>
    match findLazyGroup (r1.drop (k + 1)) with
    | some g => some ((r1.drop (k + 1)).take g)
    | none => trySpaceLens r1 k

/-- `re.search(r'Total active time\s+(.+?)(?:\s*$|Â·)', text)`: leftmost
occurrence of the literal whose tail completes the pattern; returns the
captured group. -/
def searchTotalActiveL : List Char → Option (List Char)
  | [] => none
  | c :: rest =>
    let cs := c :: rest
    if isPrefixOfC "Total active time".data cs then
      let r1 := cs.drop "Total active time".data.length
      match trySpaceLens r1 (r1.takeWhile isSpaceC).length with
      | some g => some g
      | none => searchTotalActiveL rest
    else searchTotalActiveL rest

/-- String wrapper of `searchTotalActiveL`. -/
def searchTotalActive (s : String) : Option String :=
  (searchTotalActiveL s.data).map (fun l => String.mk l)

/-- Python `str.strip()`: whitespace removed from both ends. -/
def stripS (s : String) : String :=
  String.mk (((s.data.dropWhile isSpaceC).reverse.dropWhile isSpaceC).reverse)

/-- One `"<n> unit(s)"` piece of the formatted duration, as the f-strings
of `format_duration_from_seconds` produce it. -/
def pluralUnit (n : Int) (one many : String) : String :=
  toString n ++ " " ++ (if n = 1 then one else many)

/-- `format_duration_from_seconds` (src/utils/date_utils.py lines 35-69).
The Python float constants `365.25*24*3600` and `30.44*24*3600` are exactly
the integers 31557600 and 2630016 in IEEE double arithmetic, and on whole
second counts of magnitude below 2^53 the float `//` and `%` agree with
exact integer floor division and modulus, so the embedding works on `Int`
with `fdiv`/`fmod` (Python floor semantics). -/
def format_duration_from_seconds (seconds : Int) : String :=
  let parts : List String := []
  let rem := seconds
  let years := Int.fdiv rem 31557600
  let parts := if 1 ≤ years then parts ++ [pluralUnit years "year" "years"] else parts
  let rem := if 1 ≤ years then Int.fmod rem 31557600 else rem
  let months := Int.fdiv rem 2630016
  let parts := if 1 ≤ months then parts ++ [pluralUnit months "month" "months"] else parts
  let rem := if 1 ≤ months then Int.fmod rem 2630016 else rem
  let days := Int.fdiv rem 86400
  let parts := if 1 ≤ days then parts ++ [pluralUnit days "day" "days"] else parts
  let rem := if 1 ≤ days then Int.fmod rem 86400 else rem
  let hours := Int.fdiv rem 3600
  let parts := if 1 ≤ hours then parts ++ [pluralUnit hours "hr" "hrs"] else parts
  let rem := if 1 ≤ hours then Int.fmod rem 3600 else rem
  let minutes := Int.fdiv rem 60
  let parts := if 1 ≤ minutes then parts ++ [pluralUnit minutes "min" "mins"] else parts
  if parts.isEmpty then "less than 1 min" else String.intercalate " " parts

/-! ## Media extractor (src/scrapers/media_extractor.py)

`urllib.parse.urlparse` and `urljoin` are modelled for URLs without query
or fragment components (none of the claims involves them): the parser keeps
scheme, network location and path, and the join follows the stdlib's
algorithm — a reference with a different scheme is returned unchanged, a
network location or an absolute path replaces the base's, and a relative
path is merged onto the base path up to its last slash, with `.` and `..`
segments resolved. -/

/-- Media bundle: the `{'images': [...], 'videos': [...], 'audio': [...]}`
dictionaries of the media extractor. -/
structure MediaBundle where
  images : List String
  videos : List String
  audio : List String
deriving DecidableEq, Repr

/-- `Config.IMAGE_EXTENSIONS` (src/config.py line 28). -/
def IMAGE_EXTENSIONS : List String :=
  [".jpg", ".jpeg", ".png", ".gif", ".webp", ".svg", ".bmp", ".ico", ".tiff"]

/-- `Config.VIDEO_EXTENSIONS` (src/config.py line 29). -/
def VIDEO_EXTENSIONS : List String :=
  [".mp4", ".avi", ".mov", ".wmv", ".flv", ".webm", ".mkv", ".m4v"]

/-- `Config.AUDIO_EXTENSIONS` (src/config.py line 30). -/
def AUDIO_EXTENSIONS : List String :=
  [".mp3", ".wav", ".ogg", ".m4a", ".aac", ".flac", ".wma"]

/-- Characters allowed in a URL scheme (after the initial letter). -/
def isSchemeChar (c : Char) : Bool := c.isAlphanum || c = '+' || c = '-' || c = '.'

/-- Parsed URL: scheme (lower-cased, empty when absent), network location
(present exactly when `//` follows the scheme), and path. -/
structure UrlParts where
  scheme : String
  netloc : Option String
  path : String
deriving DecidableEq, Repr

/-- Split a leading `scheme:` as `urlsplit` does: an initial letter, a run
of scheme characters, then a colon. -/
def splitSchemeL (cs : List Char) : String × List Char :=
  match cs with
  | [] => ("", cs)
  | c :: _ =>
    if c.isAlpha then
      let run := cs.takeWhile isSchemeChar
      match cs.drop run.length with
      | ':' :: tail => (String.mk (run.map lowerC), tail)
      | _ => ("", cs)
    else ("", cs)

/-- Parse scheme, netloc and path from a character list (query and fragment
are out of the model's scope and are cut off). -/
def parseUrlL (cs : List Char) : UrlParts :=
  let p := splitSchemeL cs
  match p.2 with
  | '/' :: '/' :: tail =>
    let nl := tail.takeWhile (fun c => (c != '/') && (c != '?') && (c != '#'))
    ⟨p.1, some (String.mk nl),
      String.mk ((tail.drop nl.length).takeWhile (fun c => (c != '?') && (c != '#')))⟩
  | rest => ⟨p.1, none, String.mk (rest.takeWhile (fun c => (c != '?') && (c != '#')))⟩

/-- Parse a URL string. -/
def parseUrl (s : String) : UrlParts := parseUrlL s.data

/-- Reassemble a parsed URL (`scheme:`, then `//netloc` when present, then
the path). -/
def unparseUrl (u : UrlParts) : String :=
  String.mk ((if u.scheme = "" then [] else u.scheme.data ++ [':']) ++
    (match u.netloc with
     | some n => '/' :: '/' :: n.data
     | none => []) ++ u.path.data)

/-- Python `str.startswith`. -/
def startsWithS (s pre : String) : Bool := isPrefixOfC pre.data s.data

/-- Python `str.endswith`. -/
def endsWithS (s suf : String) : Bool := suf.data.isSuffixOf s.data

/-- `MediaExtractor.is_media_url` (lines 16-23): the path of the
lower-cased URL ends with one of the given extensions. -/
def is_media_url (url : String) (extensions : List String) : Bool :=
  extensions.any (fun ext => endsWithS (parseUrlL (url.data.map lowerC)).path ext)

/-- The base path up to and including its last slash (empty when the path
has no slash), as `bpath.split('/')[:-1]` rejoined. -/
def upToLastSlash (s : String) : String :=
  String.mk ((s.data.reverse.dropWhile (fun c => c != '/')).reverse)

/-- Python `path.split('/')`, with the characters before the next slash
accumulated in reverse. -/
def splitOnSlashAux (cur : List Char) : List Char → List String
  | [] => [String.mk cur.reverse]
  | c :: rest =>
    if c = '/' then String.mk cur.reverse :: splitOnSlashAux [] rest
    else splitOnSlashAux (c :: cur) rest

/-- Python `path.split('/')`. -/
def splitOnSlash (s : String) : List String := splitOnSlashAux [] s.data

/-- Python `'/'.join(segments)`, as a character list. -/
def joinSlashL : List String → List Char
  | [] => []
  | [s] => s.data
  | s :: rest => s.data ++ '/' :: joinSlashL rest

/-- `urllib.parse.urljoin` for URLs without query or fragment: see the
section comment.  The base's scheme is assumed to admit relative joining
(true of empty, http and https schemes). -/
def urljoin (base url : String) : String :=
  if base = "" then url
  else if url = "" then base
  else
    let b := parseUrl base
    let r := parseUrl url
    if r.scheme ≠ "" ∧ r.scheme ≠ b.scheme then url
    else
      let scheme := if r.scheme ≠ "" then r.scheme else b.scheme
      match r.netloc with
      | some _ => unparseUrl ⟨scheme, r.netloc, r.path⟩
      | none =>
        if r.path = "" then unparseUrl ⟨scheme, b.netloc, b.path⟩
        else
          let merged :=
            if startsWithS r.path "/" then r.path
            else String.mk ((upToLastSlash b.path).data ++ r.path.data)
          let segs := (splitOnSlash merged).foldl
            (fun acc seg =>
              if seg = "." then acc
              else if seg = ".." then acc.dropLast
              else acc ++ [seg]) []
          unparseUrl ⟨scheme, b.netloc, String.mk (joinSlashL segs)⟩

/-- `MediaExtractor.resolve_url` (lines 25-29): join against the base only
when a base is given and the URL is nonempty and not already absolute
(`http://`, `https://`) or protocol-relative (`//`). -/
def resolve_url (url : String) (baseUrl : Option String) : String :=
  match baseUrl with
  | some b =>
    if b ≠ "" ∧ url ≠ "" ∧
        ¬(startsWithS url "http://" ∨ startsWithS url "https://" ∨ startsWithS url "//") then
      urljoin b url
    else url
  | none => url

/-- An `img` element: `src` and lazy-loading `data-src` attributes. -/
structure ImgTag where
  src : Option String
  dataSrc : Option String
deriving DecidableEq, Repr

/-- A nested `source` element. -/
structure SourceTag where
  src : Option String
deriving DecidableEq, Repr

/-- A `video` element with its nested `source` children. -/
structure VideoTag where
  src : Option String
  sources : List SourceTag
deriving DecidableEq, Repr

/-- An `audio` element with its nested `source` children. -/
structure AudioTag where
  src : Option String
  sources : List SourceTag
deriving DecidableEq, Repr

/-- Any descendant element, carrying its `style` attribute (empty when the
attribute is absent, as `elem.get('style', '')`). -/
structure StyledElem where
  style : String
deriving DecidableEq, Repr

/-- An anchor found by `find_all('a', href=True)`. -/
structure ATag where
  href : String
deriving DecidableEq, Repr

/-- The markup fragment a media extraction pass walks: the results of the
`find_all` queries, the rendered text, and the serialised form. -/
structure MediaElement where
  imgTags : List ImgTag
  videoTags : List VideoTag
  audioTags : List AudioTag
  allElements : List StyledElem
  aTags : List ATag
  textContent : String
  serialized : String
deriving DecidableEq, Repr

/-- Python attribute-value truthiness: an absent or empty string attribute
is skipped by the `if src:` guards. -/
def truthyStr : Option String → Option String
  | some s => if s = "" then none else some s
  | none => none

/-- `MediaExtractor.extract_from_img_tags` (lines 31-47): for each `img`,
the `src` then the `data-src`, resolved. -/
def extract_from_img_tags (e : MediaElement) (baseUrl : Option String) : List String :=
  (e.imgTags.map (fun img =>
    (match truthyStr img.src with
     | some s => [resolve_url s baseUrl]
     | none => []) ++
    (match truthyStr img.dataSrc with
     | some s => [resolve_url s baseUrl]
     | none => []))).flatten

/-- `MediaExtractor.extract_from_video_tags` (lines 49-67). -/
def extract_from_video_tags (e : MediaElement) (baseUrl : Option String) : List String :=
  (e.videoTags.map (fun v =>
    (match truthyStr v.src with
     | some s => [resolve_url s baseUrl]
     | none => []) ++
    (v.sources.map (fun src =>
      match truthyStr src.src with
      | some s => [resolve_url s baseUrl]
      | none => [])).flatten)).flatten

/-- `MediaExtractor.extract_from_audio_tags` (lines 69-87). -/
def extract_from_audio_tags (e : MediaElement) (baseUrl : Option String) : List String :=
  (e.audioTags.map (fun a =>
    (match truthyStr a.src with
     | some s => [resolve_url s baseUrl]
     | none => []) ++
    (a.sources.map (fun src =>
      match truthyStr src.src with
      | some s => [resolve_url s baseUrl]
      | none => [])).flatten)).flatten

/-- Match `["\']?\)` at the head; returns the rest after the match. -/
def closeCss (cs : List Char) : Option (List Char) :=
  match cs with
  | '"' :: ')' :: r => some r
  | '\'' :: ')' :: r => some r
  | ')' :: r => some r
  | _ => none

/-- Backtracking for the greedy `([^"\']+)` capture of the CSS url pattern:
capture lengths from the full quote-free run down to one, each followed by
`["\']?\)`.  Returns the capture and the rest after the whole match. -/
def tryCapLens (cs1 : List Char) : Nat → Option (List Char × List Char)
  | 0 => none
  | k + 1 =>
    match closeCss (cs1.drop (k + 1)) with
    | some rest => some (cs1.take (k + 1), rest)
    | none => tryCapLens cs1 k

/-- Match `["\']?([^"\']+)["\']?\)` at the head. -/
def cssCapture (cs : List Char) : Option (List Char × List Char) :=
  let cs1 :=
    match cs with
    | c :: tail => if c = '"' ∨ c = '\'' then tail else cs
    | [] => cs
  tryCapLens cs1 (cs1.takeWhile (fun c => (c != '"') && (c != '\''))).length

/-- Match `pat\s*url\(["\']?([^"\']+)["\']?\)` at the head, `pat` being the
literal `background-image:` or `mask-image:`. -/
def matchCssAt (pat : List Char) (cs : List Char) : Option (List Char × List Char) :=
  if isPrefixOfC pat cs then
    let r1 := (cs.drop pat.length).dropWhile isSpaceC
    if isPrefixOfC "url(".data r1 then cssCapture (r1.drop 4) else none
  else none

/-- `re.findall` for the CSS url pattern: leftmost, non-overlapping. -/
def cssFindAll (pat : List Char) : List Char → Nat → List (List Char)
  | _, 0 => []
  | [], _ => []
  | c :: rest, fuel + 1 =>
    match matchCssAt pat (c :: rest) with
    | some capAfter => capAfter.1 :: cssFindAll pat capAfter.2 fuel
    | none => cssFindAll pat rest (fuel + 1 - 1)

/-- String wrapper of `cssFindAll`. -/
def reFindAllCss (pat : String) (style : String) : List String :=
  (cssFindAll pat.data style.data style.data.length).map (fun l => String.mk l)

/-- `MediaExtractor.extract_from_css` (lines 89-111): for each element with
a nonempty `style`, the background-image matches then the mask-image
matches, each resolved and kept only when `is_media_url` accepts it for the
image extensions. -/
def extract_from_css (e : MediaElement) (baseUrl : Option String) : List String :=
  (e.allElements.map (fun elem =>
    if elem.style ≠ "" then
      (reFindAllCss "background-image:" elem.style).foldl
        (fun acc m =>
          let resolvedUrl := resolve_url m baseUrl
          if is_media_url resolvedUrl IMAGE_EXTENSIONS then acc ++ [resolvedUrl] else acc) [] ++
      (reFindAllCss "mask-image:" elem.style).foldl
        (fun acc m =>
          let resolvedUrl := resolve_url m baseUrl
          if is_media_url resolvedUrl IMAGE_EXTENSIONS then acc ++ [resolvedUrl] else acc) []
    else [])).flatten

/-- `MediaExtractor.extract_from_links` (lines 113-129): anchors classified
image, then video, then audio. -/
def extract_from_links (e : MediaElement) (baseUrl : Option String) : MediaBundle :=
  e.aTags.foldl (fun acc a =>
    if a.href ≠ "" then
      let resolvedUrl := resolve_url a.href baseUrl
      if is_media_url resolvedUrl IMAGE_EXTENSIONS then
        { acc with images := acc.images ++ [resolvedUrl] }
      else if is_media_url resolvedUrl VIDEO_EXTENSIONS then
        { acc with videos := acc.videos ++ [resolvedUrl] }
      else if is_media_url resolvedUrl AUDIO_EXTENSIONS then
        { acc with audio := acc.audio ++ [resolvedUrl] }
      else acc
    else acc) ⟨[], [], []⟩

/-- The character class `[^\s<>"\']` of the bare-URL pattern. -/
def urlClassChar (c : Char) : Bool :=
  !(isSpaceC c) && (c != '<') && (c != '>') && (c != '"') && (c != '\'')

/-- The extension alternation of the bare-URL pattern:
`'|'.join(ext.strip('.') for ext in all_extensions)` (none of these words
is a prefix of another, so the set's iteration order cannot change any
match). -/
def allExtAlts : List (List Char) :=
  (IMAGE_EXTENSIONS ++ VIDEO_EXTENSIONS ++ AUDIO_EXTENSIONS).map
    (fun e => e.data.dropWhile (fun c => c = '.'))

/-- Match `\.(?:ext₁|…)` at the head, case-insensitively; returns the
length consumed. -/
def extTailAt (cs : List Char) : Option Nat :=
  match cs with
  | '.' :: r =>
    (allExtAlts.findSome? (fun a =>
      if (r.take a.length).map lowerC = a then some (1 + a.length) else none))
  | _ => none

/-- Backtracking for the greedy `[^\s<>"\']+` run of the bare-URL pattern:
lengths from the full run down to one, each followed by `\.(?:ext|…)`. -/
def tryRunLens (cs : List Char) : Nat → Option Nat
  | 0 => none
  | k + 1 =>
    match extTailAt (cs.drop (k + 1)) with
    | some t => some (k + 1 + t)
    | none => tryRunLens cs k

/-- Match the whole bare-URL pattern
`https?://[^\s<>"\']+\.(?:ext|…)` (IGNORECASE) at the head; returns the
match length. -/
def matchUrlAt (cs : List Char) : Option Nat :=
  let headLen : Option Nat :=
    if (cs.take 8).map lowerC = "https://".data then some 8
    else if (cs.take 7).map lowerC = "http://".data then some 7
    else none
  match headLen with
  | none => none
  | some n =>
    let rest := cs.drop n
    match tryRunLens rest (rest.takeWhile urlClassChar).length with
    | some m => some (n + m)
    | none => none

/-- `re.findall` for the bare-URL pattern: leftmost, non-overlapping; the
matched text keeps its original case. -/
def urlFindAll : List Char → Nat → List (List Char)
  | _, 0 => []
  | [], _ => []
  | c :: rest, fuel + 1 =>
    match matchUrlAt (c :: rest) with
    | some len => (c :: rest).take len :: urlFindAll ((c :: rest).drop len) fuel
    | none => urlFindAll rest (fuel + 1 - 1)

/-- `MediaExtractor.extract_from_text` (lines 131-149): bare URLs found in
the rendered text plus the serialised fragment, classified image, then
video, then audio. -/
def extract_from_text (e : MediaElement) (baseUrl : Option String) : MediaBundle :=
  let allText := e.textContent ++ " " ++ e.serialized
  let textUrls := (urlFindAll allText.data allText.data.length).map (fun l => String.mk l)
  textUrls.foldl (fun acc u =>
    let resolvedUrl := resolve_url u baseUrl
    if is_media_url resolvedUrl IMAGE_EXTENSIONS then
      { acc with images := acc.images ++ [resolvedUrl] }
    else if is_media_url resolvedUrl VIDEO_EXTENSIONS then
      { acc with videos := acc.videos ++ [resolvedUrl] }
    else if is_media_url resolvedUrl AUDIO_EXTENSIONS then
      { acc with audio := acc.audio ++ [resolvedUrl] }
    else acc) ⟨[], [], []⟩

/-- `list(dict.fromkeys(l))` with its seen-keys set made explicit: keep the
first occurrence of each element, in encounter order. -/
def dedupFKAux (seen : List String) : List String → List String
  | [] => []
  | x :: xs => if x ∈ seen then dedupFKAux seen xs else x :: dedupFKAux (x :: seen) xs

/-- `list(dict.fromkeys(l))` (line 176). -/
def dedupFK (l : List String) : List String := dedupFKAux [] l

/-- The image list of `extract_media_links` before deduplication, in the
order the passes extend it (lines 159, 162, 167, 172). -/
def rawImages (e : MediaElement) (baseUrl : Option String) : List String :=
  extract_from_img_tags e baseUrl ++ extract_from_css e baseUrl ++
    (extract_from_links e baseUrl).images ++ (extract_from_text e baseUrl).images

/-- The video list of `extract_media_links` before deduplication. -/
def rawVideos (e : MediaElement) (baseUrl : Option String) : List String :=
  extract_from_video_tags e baseUrl ++
    (extract_from_links e baseUrl).videos ++ (extract_from_text e baseUrl).videos

/-- The audio list of `extract_media_links` before deduplication. -/
def rawAudio (e : MediaElement) (baseUrl : Option String) : List String :=
  extract_from_audio_tags e baseUrl ++
    (extract_from_links e baseUrl).audio ++ (extract_from_text e baseUrl).audio

/-- `MediaExtractor.extract_media_links` (lines 151-178): all passes merged
per kind, then each kind list deduplicated keeping first occurrences. -/
def extract_media_links (element : Option MediaElement) (baseUrl : Option String) :
    MediaBundle :=
  match element with
  | none => ⟨[], [], []⟩
  | some e =>
    ⟨dedupFK (rawImages e baseUrl), dedupFK (rawVideos e baseUrl),
      dedupFK (rawAudio e baseUrl)⟩

/-! ## Ad record dictionaries (src/scrapers/ad_scraper.py, and
`extract_ad_times` of src/utils/date_utils.py)

Python dicts are ordered association lists: assignment overwrites in place
or appends, `update` folds assignments, `get` finds the key.  Record values
are strings, integers, or a media bundle. -/

/-- A value stored in an ad-record dictionary. -/
inductive Val where
  | str : String → Val
  | int : Int → Val
  | bundle : MediaBundle → Val
deriving DecidableEq, Repr

/-- An ad-record dictionary: keys in insertion order. -/
abbrev AdData := List (String × Val)

/-- Python dict assignment `d[k] = v`: overwrite in place, or append. -/
def dictSet : AdData → String → Val → AdData
  | [], k, v => [(k, v)]
  | (k', v') :: rest, k, v =>
    if k' = k then (k, v) :: rest else (k', v') :: dictSet rest k v

/-- Python `d.update(e)`: assign every pair of `e` in order. -/
def dictUpdate (d : AdData) (e : AdData) : AdData :=
  e.foldl (fun acc kv => dictSet acc kv.1 kv.2) d

/-- Python `d.get(k)`. -/
def dictGet (d : AdData) (k : String) : Option Val :=
  match d.find? (fun kv => kv.1 == k) with
  | some kv => some kv.2
  | none => none

/-- Python truthiness of `d.get(k)`: `None` and empty strings and zero are
falsy (a media bundle dict has its three keys, hence is never empty and is
truthy). -/
def valTruthy : Option Val → Bool
  | some (.int t) => decide (t ≠ 0)
  | some (.str s) => decide (s ≠ "")
  | some (.bundle _) => true
  | none => false

/-- `extract_ad_times` (src/utils/date_utils.py lines 71-143).  The
`datetime.strptime`/`timestamp` chain — full month name `'%d %B %Y'`, then
abbreviated `'%d %b %Y'`, in the host timezone — is the oracle `parseDate`,
`none` standing for both formats raising `ValueError`; `now` is
`int(datetime.now().timestamp())`.  Every other operation of the function
is total, so the enclosing `try/except` blocks never fire. -/
def extract_ad_times (parseDate : String → Option Int) (now : Int) (startText : String) :
    AdData :=
  if startText = "" then
    [("start_date", .str ""), ("start_date_timestamp", .str ""),
     ("activity_duration", .str ""), ("activity_duration_timestamp", .str ""),
     ("start_at", .str startText)]
  else
    let d : AdData := []
    let d :=
      match searchStartedRunning startText with
      | some startDateStr =>
        let d := dictSet d "start_date" (.str startDateStr)
        match parseDate startDateStr with
        | some ts => dictSet d "start_date_timestamp" (.int ts)
        | none => dictSet d "start_date_timestamp" (.str "")
      | none =>
        dictSet (dictSet d "start_date" (.str "")) "start_date_timestamp" (.str "")
    let d :=
      match searchTotalActive startText with
      | some rawGroup =>
        let durationStr := stripS rawGroup
        let d := dictSet d "activity_duration" (.str durationStr)
        dictSet d "activity_duration_timestamp"
          (.int (Int.ofNat (parse_duration_to_seconds durationStr)))
      | none =>
        if valTruthy (dictGet d "start_date_timestamp") then
          match dictGet d "start_date_timestamp" with
          | some (.int ts) =>
            let calculatedDuration := now - ts
            let d := dictSet d "activity_duration"
              (.str ("Calculated: " ++ format_duration_from_seconds calculatedDuration))
            dictSet d "activity_duration_timestamp" (.int calculatedDuration)
          | _ =>
            dictSet (dictSet d "activity_duration" (.str ""))
              "activity_duration_timestamp" (.str "")
        else
          dictSet (dictSet d "activity_duration" (.str ""))
            "activity_duration_timestamp" (.str "")
    dictSet d "start_at" (.str startText)

/-- The anchor `select_one("a")` finds: its `href` attribute (absent means
`get('href', '')` returns the empty default) and its stripped text. -/
structure PageAnchor where
  href : Option String
  text : String
deriving Repr

/-- An item fragment, as the per-field `select_one` queries see it: each
field holds the stripped text (or attributes) of the selector's first
match, `none` when the selector matches nothing. -/
structure AdWrapper where
  libraryIdText : Option String
  startText : Option String
  categoryText : Option String
  ctaText : Option String
  pageNameText : Option String
  pageAnchor : Option PageAnchor
  descText : Option String
  mediaContainer : Option MediaElement
deriving Repr

/-- The fragment no field selector matches. -/
def emptyAdWrapper : AdWrapper := ⟨none, none, none, none, none, none, none, none⟩

/-- Match `Library ID:\s*(\d+)` at the head; returns the digit group. -/
def matchLibraryIdAt (cs : List Char) : Option (List Char) :=
  if isPrefixOfC "Library ID:".data cs then
    let r := (cs.drop "Library ID:".data.length).dropWhile isSpaceC
    let ds := r.takeWhile isDigitC
    if ds.isEmpty then none else some ds
  else none

/-- `re.search(r'Library ID:\s*(\d+)', text)`. -/
def searchLibraryId : List Char → Option (List Char)
  | [] => none
  | c :: rest =>
    match matchLibraryIdAt (c :: rest) with
    | some ds => some ds
    | none => searchLibraryId rest

/-- `FacebookAdScraper.extract_library_id` (lines 19-29): the numeric id
extracted from the element text, or the raw text when the pattern does not
match. -/
def extract_library_id (w : AdWrapper) : String :=
  let libraryIdText := w.libraryIdText.getD ""
  match searchLibraryId libraryIdText.data with
  | some ds => String.mk ds
  | none => libraryIdText

/-- `FacebookAdScraper.extract_start_date_info` (lines 31-38): the timing
dictionary of the designated element's text (empty text when the selector
matches nothing; the `except` fallback `{'start_at': ""}` is unreachable
with total selector lookup). -/
def extract_start_date_info (parseDate : String → Option Int) (now : Int) (w : AdWrapper) :
    AdData :=
  extract_ad_times parseDate now (w.startText.getD "")

/-- `FacebookAdScraper.extract_basic_info` (lines 40-86): six fields, each
the stripped text (or the `href`) of its selector's first match, empty
when absent; `page_image_link` and `page_link` query the same selector. -/
def extract_basic_info (w : AdWrapper) : AdData :=
  let d := dictSet [] "category_name" (.str (w.categoryText.getD ""))
  let d := dictSet d "cta" (.str (w.ctaText.getD ""))
  let d := dictSet d "page_name" (.str (w.pageNameText.getD ""))
  let d := dictSet d "page_image_link"
    (.str (match w.pageAnchor with
           | some a => a.href.getD ""
           | none => ""))
  let d := dictSet d "ad_description" (.str (w.descText.getD ""))
  dictSet d "page_link"
    (.str (match w.pageAnchor with
           | some a => a.text
           | none => ""))

/-- `FacebookAdScraper.extract_media_info` (lines 88-99): the media bundle
of the designated container, empty when the container is absent; no base
URL is passed. -/
def extract_media_info (w : AdWrapper) : MediaBundle :=
  extract_media_links w.mediaContainer none

/-- `FacebookAdScraper.scrape_single_ad` (lines 101-123): library id, then
the timing dictionary merged in, then the basic fields merged in, then the
media bundle, keyword and scrape timestamp. -/
def scrape_single_ad (parseDate : String → Option Int) (now : Int) (nowIso : String)
    (w : AdWrapper) (keyword : String) : AdData :=
  let d := dictSet [] "library_id" (.str (extract_library_id w))
  let d := dictUpdate d (extract_start_date_info parseDate now w)
  let d := dictUpdate d (extract_basic_info w)
  let d := dictSet d "media_links" (.bundle (extract_media_info w))
  let d := dictSet d "keyword" (.str keyword)
  dictSet d "scraped_at" (.str nowIso)

/-- The key sequence every scraped record carries, in insertion order. -/
def fixedKeys : List String :=
  ["library_id", "start_date", "start_date_timestamp", "activity_duration",
   "activity_duration_timestamp", "start_at", "category_name", "cta", "page_name",
   "page_image_link", "ad_description", "page_link", "media_links", "keyword",
   "scraped_at"]

/-- An exception escaping the whole-snapshot extraction (`BeautifulSoup`
parsing, container selection, or a record extraction failing). -/
inductive ScrapeErr where
  | exc : String → ScrapeErr
deriving DecidableEq, Repr

/-- The `for` loop of `scrape_facebook_ads` (lines 136-140): one record per
container, appended in document order; a raising extraction aborts the loop
(there is no per-record handler). -/
def scrapeLoop (step : AdWrapper → Except ScrapeErr AdData) :
    List AdWrapper → Except ScrapeErr (List AdData)
  | [] => .ok []
  | w :: rest =>
    match step w with
    | .ok d =>
      match scrapeLoop step rest with
      | .ok ds => .ok (d :: ds)
      | .error e => .error e
    | .error e => .error e

/-- `FacebookAdScraper.scrape_facebook_ads` (lines 125-149): the whole body
— parsing the snapshot into the matched item containers, then extracting
one record per container, appending in document order — runs inside one
`try`; any exception discards everything accumulated and the function
returns `[]`.  `parsed` is the parse-and-select result and `step` the
per-container extraction, both fallible. -/
def scrape_facebook_ads (parsed : Except ScrapeErr (List AdWrapper))
    (step : AdWrapper → Except ScrapeErr AdData) : List AdData :=
  let body : Except ScrapeErr (List AdData) :=
    match parsed with
    | .ok adWrappers => scrapeLoop step adWrappers
    | .error e => .error e
  match body with
  | .ok scrapedData => scrapedData
  | .error _ => []

/-! ## Concrete instances used by the claim theorems and witnesses -/

/-- Following the spec's words (§3, §4.5): the first-seen occurrence of each
URL, in encounter order — the reference deduplication the code's
`dict.fromkeys` is compared against. -/
def firstSeenSpec : List String → List String
  | [] => []
  | x :: xs => x :: firstSeenSpec (xs.filter (fun y => y ≠ x))
termination_by l => l.length
decreasing_by
  simp only [List.length_cons]
  exact Nat.lt_succ_of_le (List.length_filter_le _ _)

/-- A `strptime` oracle that parses exactly `28 May 2025` (to an arbitrary
but fixed timestamp). -/
def pdMay2025 : String → Option Int :=
  fun d => if d = "28 May 2025" then some 1748214000 else none

/-- A schedule entry whose `document.body.scrollHeight` read (line 112)
raises — a single transient probe failure. -/
def failHeightProbe : IterProbeE :=
  { okProbe 0 2000 5 0 0 0 with pageHeightRead := .error (.fail "timeout") }

/-- A fully functional schedule entry that observes page growth. -/
def growProbe : IterProbeE := okProbe 0 500 3 1000 1000 3

/-- The state update of one fully successful iteration, as a pure function
of the two height probes (proved equal to `scrollIterationE` on `okProbe`
inputs below). -/
def stepPure (m : Nat) (st : ScrollState) (nh eh : Nat) : ScrollState :=
  let st1 :=
    if st.lastHeight < nh then ScrollState.mk nh 0
    else if st.stallCount + 1 < m then
      (if st.lastHeight < eh then ScrollState.mk eh 0
       else ScrollState.mk st.lastHeight (st.stallCount + 1))
    else ScrollState.mk st.lastHeight (st.stallCount + 1)
  if m ≤ st1.stallCount then ScrollState.mk st1.lastHeight 0 else st1

/-! ## Verification -/

/-- A successful iteration is the pure state update of its two heights. -/
theorem scrollIterationE_okProbe (m : Nat) (st : ScrollState) (o ph c nh eh ec : Nat) :
    scrollIterationE m st (okProbe o ph c nh eh ec) = .ok (stepPure m st nh eh) := by
  by_cases h1 : st.lastHeight < nh <;>
    by_cases h2 : st.stallCount + 1 < m <;>
      by_cases h3 : st.lastHeight < eh
  all_goals
    simp [scrollIterationE, okProbe, stepPure, h1, h2, h3, Bind.bind, Except.bind,
      pure, Except.pure, ite_self, countAdElements]
  all_goals split_ifs <;> rfl

/-- The stall counter of a fully successful iteration stays below the
maximum. -/
theorem stepPure_stallCount_lt (m : Nat) (hm : 0 < m) (st : ScrollState) (nh eh : Nat) :
    (stepPure m st nh eh).stallCount < m := by
  have key : ∀ s1 : ScrollState,
      (if m ≤ s1.stallCount then ScrollState.mk s1.lastHeight 0 else s1).stallCount < m := by
    intro s1
    by_cases h : m ≤ s1.stallCount
    · simpa [h] using hm
    · simpa [h] using Nat.not_le.mp h
  exact key _

/-- With fully functional probes the loop completes every scheduled
iteration: nothing but the end of the schedule (the cancellation boundary)
stops it. -/
theorem iterationsCompleted_allOk (m : Nat) :
    ∀ (sched : List IterProbeE) (st : ScrollState), (∀ q ∈ sched, ProbeAllOk q) →
      iterationsCompleted m st sched = sched.length := by
  intro sched
  induction sched with
  | nil => intro st _; rfl
  | cons q rest ih =>
    intro st hq
    obtain ⟨o, ph, c, nh, eh, ec, rfl⟩ := hq q (List.mem_cons_self q rest)
    rw [iterationsCompleted, scrollIterationE_okProbe]
    show iterationsCompleted m (stepPure m st nh eh) rest + 1 = rest.length + 1
    rw [ih _ (fun r hr => hq r (List.mem_cons_of_mem _ hr))]

/-- Claim C1 (counterexample): from a state whose last height is 100, a
sample with the height unchanged at 100 and the matching-item count grown
from 5 to 9 is growth according to the spec's `hasGrown`, but the loop —
whose decision reads only `new_height > last_height` (line 129) — treats it
as a stall and increments `stall_count`; moreover from the initial state
(`last_height = 0`, line 74) the very first sample, with positive height,
is counted as growth, although the claim says the first sample never is. -/
theorem C1_counterexample :
    hasGrownSpec ⟨100, 5⟩ ⟨100, 9⟩ = true ∧
    scrollIterationE MAX_STALLS ⟨100, 0⟩ (okProbe 0 100 9 100 100 9) = .ok ⟨100, 1⟩ ∧
    scrollIterationE MAX_STALLS ⟨0, 0⟩ (okProbe 0 50 1 50 0 0) = .ok ⟨50, 0⟩ :=
  ⟨rfl, rfl, rfl⟩

/-- Claim C1 (amended): the growth decision compares heights only — the
iteration's outcome is independent of both element-count probes; a height
increase resets the stall counter, no height increase (in either probe)
increments it, and the first sample of a run is compared against the
initial height 0, so it counts as growth whenever its height is positive. -/
theorem C1_amended_growth_is_height_only (m : Nat) (hm : 0 < m) (st : ScrollState)
    (p : IterProbeE) (r r' : Except ProbeErr Nat) (o ph c nh eh ec : Nat) :
    scrollIterationE m st { p with findElements := r, escFindElements := r' } =
      scrollIterationE m st p ∧
    (st.lastHeight < nh → scrollIterationE m st (okProbe o ph c nh eh ec) = .ok ⟨nh, 0⟩) ∧
    (¬ st.lastHeight < nh → ¬ st.lastHeight < eh →
      scrollIterationE m st (okProbe o ph c nh eh ec) =
        .ok ⟨st.lastHeight, if m ≤ st.stallCount + 1 then 0 else st.stallCount + 1⟩) ∧
    (0 < nh → scrollIterationE m ⟨0, 0⟩ (okProbe o ph c nh eh ec) = .ok ⟨nh, 0⟩) := by
  refine ⟨rfl, ?_, ?_, ?_⟩
  · intro h1
    rw [scrollIterationE_okProbe]
    unfold stepPure
    rw [if_pos h1]
    have h0 : ¬ m ≤ 0 := by omega
    simp [h0]
  · intro h1 h3
    rw [scrollIterationE_okProbe]
    unfold stepPure
    rw [if_neg h1]
    by_cases h2 : st.stallCount + 1 < m
    · rw [if_pos h2, if_neg h3]
      simp [Nat.not_le.mpr h2]
    · rw [if_neg h2]
      simp [Nat.not_lt.mp h2]
  · intro h1
    rw [scrollIterationE_okProbe]
    unfold stepPure
    have h0 : ¬ m ≤ 0 := by omega
    simp [h1, h0]

/-- Closed instance of the amended C1 theorem. -/
theorem C1_amended_witness :
    scrollIterationE 3 ⟨10, 0⟩ (okProbe 0 0 7 20 0 0) = .ok ⟨20, 0⟩ ∧
    scrollIterationE 3 ⟨10, 1⟩ (okProbe 0 0 7 10 10 0) = .ok ⟨10, 2⟩ :=
  ⟨((C1_amended_growth_is_height_only 3 (by norm_num) ⟨10, 0⟩
      (okProbe 0 0 7 20 0 0) (.ok 7) (.ok 0) 0 0 7 20 0 0).2.1 (by norm_num)),
   by
    have h := (C1_amended_growth_is_height_only 3 (by norm_num) ⟨10, 1⟩
      (okProbe 0 0 7 10 10 0) (.ok 7) (.ok 0) 0 0 7 10 10 0).2.2.1
      (by norm_num) (by norm_num)
    simpa using h⟩

/-- Claim C2 (counterexample): one transient failure of the height probe in
the first of three scheduled iterations is not caught inside the loop as
"no growth": the loop aborts with zero completed iterations instead of
continuing, while the run as a whole still returns the page snapshot (no
error propagates). -/
theorem C2_counterexample :
    runBodyE MAX_STALLS ⟨0, 0⟩ [failHeightProbe, growProbe, growProbe] =
      .error (.fail "timeout") ∧
    iterationsCompleted MAX_STALLS ⟨0, 0⟩ [failHeightProbe, growProbe, growProbe] = 0 ∧
    scrollToBottomAndGetHtml MAX_STALLS (.ok 0) [failHeightProbe, growProbe, growProbe]
      (.ok "<html/>") = .ok "<html/>" :=
  ⟨rfl, rfl, rfl⟩

/-- Claim C2 (amended): a transient failure of the element-count probe is
caught inside `count_ad_elements` and contributes a count of 0, and the
iteration's outcome never depends on either count probe, so the run
continues; any exception escaping the loop is caught by the function's
handler and the function then returns `get_page_source()` — so the call
returns whatever the final page capture yields, and it raises exactly when
that capture itself raises (as when the probe capability is entirely
unusable). -/
theorem C2_amended_error_handling (m : Nat) (st : ScrollState) (p : IterProbeE)
    (r r' : Except ProbeErr Nat) (ic : Except ProbeErr Nat) (sched : List IterProbeE)
    (e : ProbeErr) :
    countAdElements (.error e) = 0 ∧
    scrollIterationE m st { p with findElements := r, escFindElements := r' } =
      scrollIterationE m st p ∧
    scrollToBottomAndGetHtml m ic sched (.error e) = .error e ∧
    (∀ src, scrollToBottomAndGetHtml m ic sched (.ok src) = .ok src) :=
  ⟨rfl, rfl, rfl, fun _ => rfl⟩

/-- Claim C5: stalls never stop the loop.  For fully successful probes,
every completed iteration leaves the stall counter strictly below the
maximum; an iteration that observes no growth after the counter has reached
the maximum resets it to 0 and the loop goes on; and the loop executes
exactly one iteration per schedule entry — only the cancellation boundary
(the end of the schedule) ends the run. -/
theorem C5_stalls_never_terminate (m : Nat) (hm : 0 < m) (st : ScrollState)
    (o ph c nh eh ec : Nat) (sched : List IterProbeE) (hs : ∀ q ∈ sched, ProbeAllOk q) :
    (∀ st', scrollIterationE m st (okProbe o ph c nh eh ec) = .ok st' →
      st'.stallCount < m) ∧
    (¬ st.lastHeight < nh → m ≤ st.stallCount + 1 →
      scrollIterationE m st (okProbe o ph c nh eh ec) = .ok ⟨st.lastHeight, 0⟩) ∧
    iterationsCompleted m (ScrollState.mk 0 0) sched = sched.length := by
  refine ⟨?_, ?_, iterationsCompleted_allOk m sched _ hs⟩
  · intro st' h
    rw [scrollIterationE_okProbe] at h
    cases h
    exact stepPure_stallCount_lt m hm st nh eh
  · intro h1 h2
    rw [scrollIterationE_okProbe]
    have h2' : ¬ st.stallCount + 1 < m := by omega
    unfold stepPure
    simp [h1, h2, h2']

/-- Closed instance of the C5 theorem. -/
theorem C5_witness :
    scrollIterationE 3 ⟨100, 2⟩ (okProbe 0 0 0 50 0 0) = .ok ⟨100, 0⟩ ∧
    iterationsCompleted 3 (ScrollState.mk 0 0) [okProbe 0 9 9 9 9 9] = 1 := by
  have h := C5_stalls_never_terminate 3 (by norm_num) ⟨100, 2⟩ 0 0 0 50 0 0
    [okProbe 0 9 9 9 9 9] (by
      intro q hq
      simp only [List.mem_singleton] at hq
      exact ⟨0, 9, 9, 9, 9, 9, hq⟩)
  exact ⟨h.2.1 (by norm_num) (by norm_num), h.2.2⟩

/-- The loop with an everywhere-successful per-record step maps the step
over the containers in order. -/
theorem scrapeLoop_ok_map (f : AdWrapper → AdData) :
    ∀ ws : List AdWrapper, scrapeLoop (fun w => .ok (f w)) ws = .ok (ws.map f) := by
  intro ws
  induction ws with
  | nil => rfl
  | cons w rest ih =>
    rw [scrapeLoop, ih]
    rfl

/-- Claim C10: whole-snapshot extraction is all-or-nothing.  A parse
failure yields `[]`; a failure while extracting any record discards
everything and yields `[]`; when every step succeeds the result is exactly
the per-container records in document order; and with the actual (total)
per-record extractor it is one `scrape_single_ad` record per container, in
order.  The function's return type is a plain list: no exception
propagates. -/
theorem C10_all_or_nothing (ws : List AdWrapper) (step : AdWrapper → Except ScrapeErr AdData)
    (e : ScrapeErr) (pd : String → Option Int) (now : Int) (iso kw : String) :
    scrape_facebook_ads (.error e) step = [] ∧
    (scrapeLoop step ws = .error e → scrape_facebook_ads (.ok ws) step = []) ∧
    (∀ l, scrapeLoop step ws = .ok l → scrape_facebook_ads (.ok ws) step = l) ∧
    scrape_facebook_ads (.ok ws) (fun w => .ok (scrape_single_ad pd now iso w kw)) =
      ws.map (fun w => scrape_single_ad pd now iso w kw) := by
  refine ⟨rfl, ?_, ?_, ?_⟩
  · intro h; simp [scrape_facebook_ads, h]
  · intro l h; simp [scrape_facebook_ads, h]
  · simp [scrape_facebook_ads, scrapeLoop_ok_map]

/-- Closed instance of the C10 theorem: a failing record extraction
discards the whole batch. -/
theorem C10_witness :
    scrape_facebook_ads (.ok [emptyAdWrapper]) (fun _ => .error (.exc "boom")) = [] :=
  (C10_all_or_nothing [emptyAdWrapper] (fun _ => .error (.exc "boom")) (.exc "boom")
    (fun _ => none) 0 "" "").2.1 rfl

/-- A dictionary lookup succeeds exactly for the keys present. -/
theorem dictGet_isSome_iff (d : AdData) (k : String) :
    (dictGet d k).isSome = true ↔ k ∈ d.map Prod.fst := by
  induction d with
  | nil => simp [dictGet]
  | cons kv rest ih =>
    by_cases hk : kv.1 = k
    · simp [dictGet, List.find?_cons, hk]
    · have hbeq : (kv.1 == k) = false := by simpa using hk
      simp only [List.map_cons, List.mem_cons]
      rw [show dictGet (kv :: rest) k = dictGet rest k by
        simp [dictGet, List.find?_cons, hbeq]]
      rw [ih]
      constructor
      · exact Or.inr
      · rintro (he | hm)
        · exact absurd he.symm hk
        · exact hm

/-- Assigning a fresh key appends it. -/
theorem dictSet_keys_append : ∀ (d : AdData) (k : String) (v : Val), k ∉ d.map Prod.fst →
    (dictSet d k v).map Prod.fst = d.map Prod.fst ++ [k] := by
  intro d k v
  induction d with
  | nil => intro _; rfl
  | cons kv rest ih =>
    intro h
    simp only [List.map_cons, List.mem_cons] at h
    push_neg at h
    rw [dictSet, if_neg (fun he => h.1 he.symm)]
    simp only [List.map_cons, ih h.2, List.cons_append]

/-- Updating with fresh, mutually distinct keys appends them in order. -/
theorem dictUpdate_keys_append : ∀ (e d : AdData), ((e.map Prod.fst).Nodup) →
    (∀ k ∈ e.map Prod.fst, k ∉ d.map Prod.fst) →
    (dictUpdate d e).map Prod.fst = d.map Prod.fst ++ e.map Prod.fst := by
  intro e
  induction e with
  | nil => intro d _ _; simp [dictUpdate]
  | cons kv rest ih =>
    intro d hnd hdisj
    have hstep : dictUpdate d (kv :: rest) = dictUpdate (dictSet d kv.1 kv.2) rest := rfl
    have hnd' : (kv.1 :: rest.map Prod.fst).Nodup := by simpa using hnd
    have hk : kv.1 ∉ d.map Prod.fst := hdisj kv.1 (by simp)
    have hset := dictSet_keys_append d kv.1 kv.2 hk
    rw [hstep, ih (dictSet d kv.1 kv.2) ((List.nodup_cons.mp hnd').2) ?hd]
    · rw [hset]; simp
    case hd =>
      intro k hkr
      rw [hset]
      simp only [List.mem_append, List.mem_singleton]
      push_neg
      refine ⟨hdisj k (by simp [hkr]), ?_⟩
      intro he
      subst he
      exact (List.nodup_cons.mp hnd').1 hkr

/-- The timing dictionary always carries exactly its five keys, in
insertion order, whatever the input text and the date oracle do. -/
theorem extract_ad_times_keys (pd : String → Option Int) (now : Int) (s : String) :
    (extract_ad_times pd now s).map Prod.fst =
      ["start_date", "start_date_timestamp", "activity_duration",
       "activity_duration_timestamp", "start_at"] := by
  by_cases hs : s = ""
  · subst hs; rfl
  · rw [extract_ad_times, if_neg hs]
    rcases searchStartedRunning s with _ | ds
    · rcases searchTotalActive s with _ | g <;> simp [dictSet, dictGet, valTruthy]
    · rcases hpd : pd ds with _ | ts
      · rcases searchTotalActive s with _ | g <;> simp [hpd, dictSet, dictGet, valTruthy]
      · rcases searchTotalActive s with _ | g
        · by_cases hts : ts = 0
          · subst hts; simp [hpd, dictSet, dictGet, valTruthy]
          · simp [hpd, dictSet, dictGet, valTruthy, hts]
        · simp [hpd, dictSet, dictGet, valTruthy]

/-- The basic-info dictionary carries exactly its six keys. -/
theorem extract_basic_info_keys (w : AdWrapper) :
    (extract_basic_info w).map Prod.fst =
      ["category_name", "cta", "page_name", "page_image_link", "ad_description",
       "page_link"] := by
  simp [extract_basic_info, dictSet]

/-- Every scraped record carries exactly the fixed key sequence. -/
theorem scrape_single_ad_keys (pd : String → Option Int) (now : Int) (iso : String)
    (w : AdWrapper) (kw : String) :
    (scrape_single_ad pd now iso w kw).map Prod.fst = fixedKeys := by
  have ht := extract_ad_times_keys pd now (w.startText.getD "")
  have hb := extract_basic_info_keys w
  have h1 : (dictUpdate [("library_id", Val.str (extract_library_id w))]
      (extract_ad_times pd now (w.startText.getD ""))).map Prod.fst =
      ["library_id", "start_date", "start_date_timestamp", "activity_duration",
       "activity_duration_timestamp", "start_at"] := by
    rw [dictUpdate_keys_append _ _ (by rw [ht]; decide) (by rw [ht]; simp)]
    rw [ht]
    rfl
  have h2 : (dictUpdate (dictUpdate [("library_id", Val.str (extract_library_id w))]
      (extract_ad_times pd now (w.startText.getD ""))) (extract_basic_info w)).map Prod.fst =
      ["library_id", "start_date", "start_date_timestamp", "activity_duration",
       "activity_duration_timestamp", "start_at", "category_name", "cta", "page_name",
       "page_image_link", "ad_description", "page_link"] := by
    rw [dictUpdate_keys_append _ _ (by rw [hb]; decide) (by rw [hb, h1]; decide)]
    rw [h1, hb]
    rfl
  have h3 : (dictSet (dictUpdate (dictUpdate
      [("library_id", Val.str (extract_library_id w))]
      (extract_ad_times pd now (w.startText.getD ""))) (extract_basic_info w))
      "media_links" (Val.bundle (extract_media_info w))).map Prod.fst =
      ["library_id", "start_date", "start_date_timestamp", "activity_duration",
       "activity_duration_timestamp", "start_at", "category_name", "cta", "page_name",
       "page_image_link", "ad_description", "page_link", "media_links"] := by
    rw [dictSet_keys_append _ _ _ (by rw [h2]; decide), h2]
    rfl
  have h4 : (dictSet (dictSet (dictUpdate (dictUpdate
      [("library_id", Val.str (extract_library_id w))]
      (extract_ad_times pd now (w.startText.getD ""))) (extract_basic_info w))
      "media_links" (Val.bundle (extract_media_info w))) "keyword" (Val.str kw)).map
      Prod.fst =
      ["library_id", "start_date", "start_date_timestamp", "activity_duration",
       "activity_duration_timestamp", "start_at", "category_name", "cta", "page_name",
       "page_image_link", "ad_description", "page_link", "media_links", "keyword"] := by
    rw [dictSet_keys_append _ _ _ (by rw [h3]; decide), h3]
    rfl
  show (dictSet (dictSet (dictSet (dictUpdate (dictUpdate
      [("library_id", Val.str (extract_library_id w))]
      (extract_ad_times pd now (w.startText.getD "")))
      (extract_basic_info w)) "media_links" (Val.bundle (extract_media_info w)))
      "keyword" (Val.str kw)) "scraped_at" (Val.str iso)).map Prod.fst = fixedKeys
  rw [dictSet_keys_append _ _ _ (by rw [h4]; decide), h4]
  rfl

/-- Claim C3: every record carries every fixed key — in fact exactly the
fixed key sequence (plus the always-present raw-text key `start_at`), for
every fragment, keyword and date oracle — and the fragment matching no
field selector yields the record with empty-string values, an empty media
bundle, and the stamped keyword and scrape time, raising nothing. -/
theorem C3_all_keys_present (pd : String → Option Int) (now : Int) (iso : String)
    (w : AdWrapper) (kw : String) :
    ((scrape_single_ad pd now iso w kw).map Prod.fst = fixedKeys ∧
      ∀ k, k ∈ fixedKeys → (dictGet (scrape_single_ad pd now iso w kw) k).isSome = true) ∧
    scrape_single_ad pd now iso emptyAdWrapper kw =
      [("library_id", .str ""), ("start_date", .str ""), ("start_date_timestamp", .str ""),
       ("activity_duration", .str ""), ("activity_duration_timestamp", .str ""),
       ("start_at", .str ""), ("category_name", .str ""), ("cta", .str ""),
       ("page_name", .str ""), ("page_image_link", .str ""), ("ad_description", .str ""),
       ("page_link", .str ""), ("media_links", .bundle ⟨[], [], []⟩),
       ("keyword", .str kw), ("scraped_at", .str iso)] := by
  refine ⟨⟨scrape_single_ad_keys pd now iso w kw, ?_⟩, rfl⟩
  intro k hk
  rw [dictGet_isSome_iff, scrape_single_ad_keys pd now iso w kw]
  exact hk

/-- Closed instance of the C3 theorem. -/
theorem C3_witness :
    (dictGet (scrape_single_ad (fun _ => none) 0 "2025-01-01T00:00:00" emptyAdWrapper
      "shoes") "media_links").isSome = true :=
  (C3_all_keys_present (fun _ => none) 0 "2025-01-01T00:00:00" emptyAdWrapper "shoes").1.2
    "media_links" (by decide)

/-- Claim C6: the duration text is decomposed by four independent
searches — days, hours, minutes, seconds — each optional and contributing
zero when absent, summed into total seconds; and on the spec's example the
parser extracts startDate "28 May 2025" and 10800 seconds from "3 hrs". -/
theorem C6_duration_decomposition (pd : String → Option Int) (now : Int) :
    (∀ s : String, parse_duration_to_seconds s =
      daysContribution s + hoursContribution s + minutesContribution s +
        secondsContribution s) ∧
    dictGet (extract_ad_times pd now
        "Started running on 28 May 2025 · Total active time 3 hrs") "start_date" =
      some (.str "28 May 2025") ∧
    dictGet (extract_ad_times pd now
        "Started running on 28 May 2025 · Total active time 3 hrs")
        "activity_duration_timestamp" = some (.int 10800) ∧
    dictGet (extract_ad_times pd now
        "Started running on 28 May 2025 · Total active time 3 hrs")
        "activity_duration" = some (.str "3 hrs") := by
  refine ⟨?_, ?_, ?_, ?_⟩
  · intro s
    unfold parse_duration_to_seconds daysContribution hoursContribution
      minutesContribution secondsContribution
    rcases hd : searchNumUnit (s.data.map lowerC) ["day".data, "days".data] with _ | d <;>
      rcases hh : searchNumUnit (s.data.map lowerC)
        ["hr".data, "hrs".data, "hour".data, "hours".data] with _ | h <;>
      rcases hmi : searchNumUnit (s.data.map lowerC)
        ["min".data, "mins".data, "minute".data, "minutes".data] with _ | mi <;>
      rcases hse : searchNumUnit (s.data.map lowerC)
        ["sec".data, "secs".data, "second".data, "seconds".data] with _ | se <;>
      simp [hd, hh, hmi, hse] <;> ring
  all_goals
    have hsr : searchStartedRunning
        "Started running on 28 May 2025 · Total active time 3 hrs" =
        some "28 May 2025" := rfl
    have hta : searchTotalActive
        "Started running on 28 May 2025 · Total active time 3 hrs" =
        some "3 hrs" := rfl
    rw [extract_ad_times, if_neg (by decide), hsr, hta]
    rcases hpd : pd "28 May 2025" with _ | ts <;>
      simp [hpd, dictSet, dictGet, stripS, isSpaceC] <;> rfl

/-- Claim C7: when the text has no duration substring but a nonzero start
timestamp was derived, the record carries activityDurationTimestamp =
now − startDateTimestamp and activityDuration = "Calculated: " followed by
the bucket-walk rendering of that difference; and the rendering of any
span below one minute is "less than 1 min" (every zero bucket is
omitted). -/
theorem C7_calculated_duration (pd : String → Option Int) (now t : Int) (s ds : String)
    (hne : ¬ s = "") (hsr : searchStartedRunning s = some ds) (hpd : pd ds = some t)
    (ht : ¬ t = 0) (hta : searchTotalActive s = none) :
    dictGet (extract_ad_times pd now s) "start_date_timestamp" = some (.int t) ∧
    dictGet (extract_ad_times pd now s) "activity_duration_timestamp" =
      some (.int (now - t)) ∧
    dictGet (extract_ad_times pd now s) "activity_duration" =
      some (.str ("Calculated: " ++ format_duration_from_seconds (now - t))) ∧
    (∀ sec : Int, 0 ≤ sec → sec < 60 →
      format_duration_from_seconds sec = "less than 1 min") := by
  have hmain : extract_ad_times pd now s =
      [("start_date", .str ds), ("start_date_timestamp", .int t),
       ("activity_duration",
        .str ("Calculated: " ++ format_duration_from_seconds (now - t))),
       ("activity_duration_timestamp", .int (now - t)), ("start_at", .str s)] := by
    rw [extract_ad_times, if_neg hne, hsr, hta]
    simp [hpd, dictSet, dictGet, valTruthy, ht]
  rw [hmain]
  refine ⟨rfl, rfl, rfl, ?_⟩
  intro sec h0 h60
  have hz : ∀ k : Int, 0 < k → sec < k → Int.fdiv sec k = 0 := by
    intro k hk hsk
    rw [Int.fdiv_eq_ediv _ (by omega)]
    exact Int.ediv_eq_zero_of_lt h0 hsk
  have hy := hz 31557600 (by norm_num) (by omega)
  have hmo := hz 2630016 (by norm_num) (by omega)
  have hdy := hz 86400 (by norm_num) (by omega)
  have hhr := hz 3600 (by norm_num) (by omega)
  have hmin := hz 60 (by norm_num) (by omega)
  simp [format_duration_from_seconds, hy, hmo, hdy, hhr, hmin]

/-- Closed instance of the C7 theorem: one day and one hour after the
parsed start date. -/
theorem C7_witness :
    dictGet (extract_ad_times pdMay2025 1748304000 "Started running on 28 May 2025")
      "activity_duration_timestamp" = some (.int (1748304000 - 1748214000)) ∧
    dictGet (extract_ad_times pdMay2025 1748304000 "Started running on 28 May 2025")
      "activity_duration" = some (.str ("Calculated: " ++
        format_duration_from_seconds (1748304000 - 1748214000))) :=
  ⟨(C7_calculated_duration pdMay2025 1748304000 1748214000
      "Started running on 28 May 2025" "28 May 2025"
      (by decide) rfl rfl (by decide) rfl).2.1,
   (C7_calculated_duration pdMay2025 1748304000 1748214000
      "Started running on 28 May 2025" "28 May 2025"
      (by decide) rfl rfl (by decide) rfl).2.2.1⟩

/-- Membership in the deduplicated list: in the tail and not yet seen. -/
theorem mem_dedupFKAux {x : String} : ∀ (l seen : List String),
    x ∈ dedupFKAux seen l ↔ x ∈ l ∧ x ∉ seen := by
  intro l
  induction l with
  | nil => intro seen; simp [dedupFKAux]
  | cons y ys ih =>
    intro seen
    by_cases hy : y ∈ seen
    · rw [dedupFKAux, if_pos hy, ih seen]
      simp only [List.mem_cons]
      constructor
      · rintro ⟨h1, h2⟩; exact ⟨Or.inr h1, h2⟩
      · rintro ⟨h1 | h1, h2⟩
        · exact absurd (h1 ▸ hy) h2
        · exact ⟨h1, h2⟩
    · rw [dedupFKAux, if_neg hy]
      simp only [List.mem_cons, ih (y :: seen)]
      by_cases hxy : x = y
      · subst hxy; simp [hy]
      · simp [hxy]

/-- The deduplicated list has no duplicates. -/
theorem dedupFKAux_nodup : ∀ (l seen : List String), (dedupFKAux seen l).Nodup := by
  intro l
  induction l with
  | nil => intro seen; simp [dedupFKAux]
  | cons y ys ih =>
    intro seen
    by_cases hy : y ∈ seen
    · rw [dedupFKAux, if_pos hy]; exact ih seen
    · rw [dedupFKAux, if_neg hy]
      refine List.nodup_cons.mpr ⟨?_, ih (y :: seen)⟩
      intro hmem
      exact ((mem_dedupFKAux _ _).mp hmem).2 (List.mem_cons_self y seen)

/-- Deduplication only removes elements, keeping the remaining ones in
their original relative order. -/
theorem dedupFKAux_sublist : ∀ (l seen : List String),
    List.Sublist (dedupFKAux seen l) l := by
  intro l
  induction l with
  | nil => intro seen; simp [dedupFKAux]
  | cons y ys ih =>
    intro seen
    by_cases hy : y ∈ seen
    · rw [dedupFKAux, if_pos hy]
      exact (ih seen).cons y
    · rw [dedupFKAux, if_neg hy]
      exact (ih (y :: seen)).cons₂ y

/-- The seen set only matters up to membership. -/
theorem dedupFKAux_congr : ∀ (l seen₁ seen₂ : List String),
    (∀ a, a ∈ seen₁ ↔ a ∈ seen₂) → dedupFKAux seen₁ l = dedupFKAux seen₂ l := by
  intro l
  induction l with
  | nil => intros; rfl
  | cons y ys ih =>
    intro s1 s2 hs
    by_cases hy : y ∈ s1
    · rw [dedupFKAux, if_pos hy, dedupFKAux, if_pos ((hs y).mp hy), ih s1 s2 hs]
    · rw [dedupFKAux, if_neg hy, dedupFKAux, if_neg (fun h => hy ((hs y).mpr h))]
      rw [ih (y :: s1) (y :: s2) (fun a => by simp [hs a])]

/-- Marking an element seen is filtering it out of the remainder. -/
theorem dedupFKAux_cons_filter : ∀ (l : List String) (x : String) (seen : List String),
    dedupFKAux (x :: seen) l = dedupFKAux seen (l.filter (fun y => y ≠ x)) := by
  intro l
  induction l with
  | nil => intros; rfl
  | cons y ys ih =>
    intro x seen
    by_cases hyx : y = x
    · subst hyx
      rw [dedupFKAux, if_pos (List.mem_cons_self y seen)]
      rw [show (y :: ys).filter (fun z => z ≠ y) = ys.filter (fun z => z ≠ y) by
        simp [List.filter_cons]]
      exact ih y seen
    · rw [show (y :: ys).filter (fun z => z ≠ x) = y :: ys.filter (fun z => z ≠ x) by
        simp [List.filter_cons, hyx]]
      by_cases hy : y ∈ seen
      · rw [dedupFKAux, if_pos (List.mem_cons_of_mem _ hy), dedupFKAux, if_pos hy]
        exact ih x seen
      · rw [dedupFKAux, if_neg (by simp [hyx, hy]), dedupFKAux, if_neg hy]
        rw [dedupFKAux_congr ys (y :: x :: seen) (x :: y :: seen) (fun a => by
          simp only [List.mem_cons]; tauto)]
        rw [ih x (y :: seen)]

/-- Bounded-length induction step for the equivalence of the code's
deduplication with the spec's first-seen order. -/
theorem dedupFK_eq_firstSeenSpec_aux : ∀ (n : Nat) (l : List String), l.length ≤ n →
    dedupFK l = firstSeenSpec l := by
  intro n
  induction n with
  | zero =>
    intro l hl
    rw [List.length_eq_zero.mp (Nat.le_zero.mp hl), firstSeenSpec]
    rfl
  | succ n ih =>
    intro l hl
    cases l with
    | nil => rw [firstSeenSpec]; rfl
    | cons x xs =>
      rw [firstSeenSpec, dedupFK, dedupFKAux, if_neg (List.not_mem_nil x)]
      rw [dedupFKAux_cons_filter xs x []]
      rw [show dedupFKAux [] (xs.filter (fun y => y ≠ x)) =
        dedupFK (xs.filter (fun y => y ≠ x)) from rfl]
      rw [ih (xs.filter (fun y => y ≠ x)) (by
        have := List.length_filter_le (fun y => y ≠ x) xs
        simp only [List.length_cons] at hl
        omega)]

/-- `list(dict.fromkeys(·))` is exactly the spec's first-seen-order
deduplication. -/
theorem dedupFK_eq_firstSeenSpec (l : List String) : dedupFK l = firstSeenSpec l :=
  dedupFK_eq_firstSeenSpec_aux l.length l (Nat.le_refl _)

/-- Claim C8: for every fragment and base URL, each kind list of the
extracted media bundle has no duplicates, is a sublist of the concatenated
discovery passes (so relative order is preserved), equals the first-seen
deduplication of those passes, and keeps exactly the URLs the passes
found; the fragment with image references [A, B, A] yields images
[A, B]. -/
theorem C8_media_bundle_dedup (e : MediaElement) (baseUrl : Option String) :
    ((extract_media_links (some e) baseUrl).images.Nodup ∧
     (extract_media_links (some e) baseUrl).videos.Nodup ∧
     (extract_media_links (some e) baseUrl).audio.Nodup) ∧
    (List.Sublist (extract_media_links (some e) baseUrl).images (rawImages e baseUrl) ∧
     List.Sublist (extract_media_links (some e) baseUrl).videos (rawVideos e baseUrl) ∧
     List.Sublist (extract_media_links (some e) baseUrl).audio (rawAudio e baseUrl)) ∧
    ((extract_media_links (some e) baseUrl).images = firstSeenSpec (rawImages e baseUrl) ∧
     (extract_media_links (some e) baseUrl).videos = firstSeenSpec (rawVideos e baseUrl) ∧
     (extract_media_links (some e) baseUrl).audio = firstSeenSpec (rawAudio e baseUrl)) ∧
    (∀ u : String,
      (u ∈ (extract_media_links (some e) baseUrl).images ↔ u ∈ rawImages e baseUrl) ∧
      (u ∈ (extract_media_links (some e) baseUrl).videos ↔ u ∈ rawVideos e baseUrl) ∧
      (u ∈ (extract_media_links (some e) baseUrl).audio ↔ u ∈ rawAudio e baseUrl)) ∧
    extract_media_links (some ⟨[⟨some "a.jpg", none⟩, ⟨some "b.png", some "a.jpg"⟩],
      [], [], [], [], "", ""⟩) none = ⟨["a.jpg", "b.png"], [], []⟩ := by
  have hmem : ∀ (u : String) (l : List String), u ∈ dedupFK l ↔ u ∈ l := by
    intro u l
    rw [show dedupFK l = dedupFKAux [] l from rfl, mem_dedupFKAux]
    simp
  refine ⟨⟨dedupFKAux_nodup _ _, dedupFKAux_nodup _ _, dedupFKAux_nodup _ _⟩,
    ⟨dedupFKAux_sublist _ _, dedupFKAux_sublist _ _, dedupFKAux_sublist _ _⟩,
    ⟨dedupFK_eq_firstSeenSpec _, dedupFK_eq_firstSeenSpec _, dedupFK_eq_firstSeenSpec _⟩,
    ?_, rfl⟩
  intro u
  exact ⟨hmem u _, hmem u _, hmem u _⟩

set_option maxRecDepth 16384 in
/-- Claim C4 (counterexample): after ten failed and then ten successful
scroll attempts, the success rate over the last 10 attempts is 1 —
consistently high, so the claimed rolling policy would lower the wait to
`clamp(8 * 0.9, base, max) = 7.2` — yet the controller leaves the wait at
8, because its rate is cumulative: 10/20 = 0.5, below the 0.8 threshold. -/
theorem C4_counterexample :
    rollingSuccessRate obs20 = 1 ∧
    (runAdaptive 2 obs20.dropLast).currentWaitTime = 8 ∧
    (runAdaptive 2 obs20).currentWaitTime = 8 ∧
    max ((8 : ℚ) * (9 / 10)) 2 = 36 / 5 ∧ ((36 : ℚ) / 5) ≠ 8 := by
  refine ⟨?_, ?_, ?_, ?_, ?_⟩
  · norm_num [rollingSuccessRate, obs20, obsFail, obsSucc, List.replicate, List.filter]
  · norm_num [runAdaptive, obs20, obsFail, obsSucc, List.replicate, initAdaptive,
      adaptiveScrollAndWait, updateMetrics, adjustTiming, dequeAppend10,
      performanceThreshold, List.foldl]
  · norm_num [runAdaptive, obs20, obsFail, obsSucc, List.replicate, initAdaptive,
      adaptiveScrollAndWait, updateMetrics, adjustTiming, dequeAppend10,
      performanceThreshold, List.foldl]
  · rw [max_eq_left (by norm_num)]; norm_num
  · norm_num

/-- Claim C4 (amended): each attempt increments the attempt counter,
increments the success counter exactly when the element count grew, and
appends the load time to the ten-entry window (which feeds only the load
average).  The adjustment uses the cumulative rate
`successfulScrolls / max(1, scrollAttempts)`: below 0.8 the wait becomes
`min(wait * 1.2, 8)`; above 0.95 and only while the wait exceeds the base
it becomes `max(wait * 0.9, base)`; otherwise it is unchanged. -/
theorem C4_amended_cumulative_rate (s : AdaptiveState) (ic fc : Nat) (lt : ℚ) :
    (updateMetrics s ic fc lt).metrics.scrollAttempts = s.metrics.scrollAttempts + 1 ∧
    (updateMetrics s ic fc lt).metrics.successfulScrolls =
      (if ic < fc then s.metrics.successfulScrolls + 1 else s.metrics.successfulScrolls) ∧
    (updateMetrics s ic fc lt).loadTimes = dequeAppend10 s.loadTimes lt ∧
    (((updateMetrics s ic fc lt).metrics.successfulScrolls : ℚ) /
        max 1 ((updateMetrics s ic fc lt).metrics.scrollAttempts : ℚ) < 4 / 5 →
      (adaptiveScrollAndWait s ic fc lt).1.currentWaitTime =
        min (s.currentWaitTime * (6 / 5)) 8) ∧
    (¬ ((updateMetrics s ic fc lt).metrics.successfulScrolls : ℚ) /
        max 1 ((updateMetrics s ic fc lt).metrics.scrollAttempts : ℚ) < 4 / 5 →
      19 / 20 < ((updateMetrics s ic fc lt).metrics.successfulScrolls : ℚ) /
        max 1 ((updateMetrics s ic fc lt).metrics.scrollAttempts : ℚ) →
      s.baseWaitTime < s.currentWaitTime →
      (adaptiveScrollAndWait s ic fc lt).1.currentWaitTime =
        max (s.currentWaitTime * (9 / 10)) s.baseWaitTime) ∧
    (¬ ((updateMetrics s ic fc lt).metrics.successfulScrolls : ℚ) /
        max 1 ((updateMetrics s ic fc lt).metrics.scrollAttempts : ℚ) < 4 / 5 →
      ¬ (19 / 20 < ((updateMetrics s ic fc lt).metrics.successfulScrolls : ℚ) /
        max 1 ((updateMetrics s ic fc lt).metrics.scrollAttempts : ℚ) ∧
        s.baseWaitTime < s.currentWaitTime) →
      (adaptiveScrollAndWait s ic fc lt).1.currentWaitTime = s.currentWaitTime) := by
  have hbase : (updateMetrics s ic fc lt).baseWaitTime = s.baseWaitTime := by
    simp [updateMetrics]
  have hcur : (updateMetrics s ic fc lt).currentWaitTime = s.currentWaitTime := by
    simp [updateMetrics]
  refine ⟨by simp [updateMetrics]; split_ifs <;> rfl,
    by simp [updateMetrics]; split_ifs <;> simp, by simp [updateMetrics], ?_, ?_, ?_⟩
  · intro hrate
    simp only [adaptiveScrollAndWait, adjustTiming, performanceThreshold]
    rw [if_pos hrate, hcur]
  · intro hrate1 hrate2 hwait
    simp only [adaptiveScrollAndWait, adjustTiming, performanceThreshold]
    rw [if_neg hrate1, if_pos ⟨hrate2, by rw [hbase, hcur]; exact hwait⟩, hcur, hbase]
  · intro hrate1 hno
    simp only [adaptiveScrollAndWait, adjustTiming, performanceThreshold]
    rw [if_neg hrate1, if_neg (by rw [hbase, hcur]; exact hno), hcur]

/-- Closed instance of the amended C4 theorem: the very first attempt fails
and the wait rises from 2 to min(2 * 1.2, 8). -/
theorem C4_amended_witness :
    (adaptiveScrollAndWait (initAdaptive 2) 0 0 1).1.currentWaitTime =
      min ((2 : ℚ) * (6 / 5)) 8 :=
  (C4_amended_cumulative_rate (initAdaptive 2) 0 0 1).2.2.2.1
    (by norm_num [updateMetrics, initAdaptive, dequeAppend10])

/-- A list is a prefix of itself followed by anything. -/
theorem isPrefixOfC_append_self : ∀ (l t : List Char), isPrefixOfC l (l ++ t) = true := by
  intro l t
  induction l with
  | nil => rfl
  | cons c cs ih => simp [isPrefixOfC, ih]

/-- A successful prefix test decomposes the subject. -/
theorem exists_append_of_isPrefixOfC : ∀ {l₁ l₂ : List Char},
    isPrefixOfC l₁ l₂ = true → ∃ t, l₂ = l₁ ++ t := by
  intro l₁
  induction l₁ with
  | nil => intro l₂ _; exact ⟨l₂, rfl⟩
  | cons c cs ih =>
    intro l₂ h
    cases l₂ with
    | nil => simp [isPrefixOfC] at h
    | cons d ds =>
      simp only [isPrefixOfC, Bool.and_eq_true, beq_iff_eq] at h
      obtain ⟨rfl, h2⟩ := h
      obtain ⟨t, rfl⟩ := ih h2
      exact ⟨t, rfl⟩

/-- A URL starting with `http://` parses to the scheme `http` with a
network location present. -/
theorem parseUrl_of_http (b : String) (hb : startsWithS b "http://" = true) :
    (parseUrl b).scheme = "http" ∧ ∃ nb, (parseUrl b).netloc = some nb := by
  obtain ⟨t, ht⟩ := exists_append_of_isPrefixOfC hb
  unfold parseUrl
  rw [ht]
  exact ⟨rfl, ⟨_, rfl⟩⟩

/-- A URL starting with `https://` parses to the scheme `https` with a
network location present. -/
theorem parseUrl_of_https (b : String) (hb : startsWithS b "https://" = true) :
    (parseUrl b).scheme = "https" ∧ ∃ nb, (parseUrl b).netloc = some nb := by
  obtain ⟨t, ht⟩ := exists_append_of_isPrefixOfC hb
  unfold parseUrl
  rw [ht]
  exact ⟨rfl, ⟨_, rfl⟩⟩

/-- Reassembling with scheme `http` and a netloc yields an `http://` URL. -/
theorem startsWithS_unparse_http (n p : String) :
    startsWithS (unparseUrl ⟨"http", some n, p⟩) "http://" = true := rfl

/-- Reassembling with scheme `https` and a netloc yields an `https://` URL. -/
theorem startsWithS_unparse_https (n p : String) :
    startsWithS (unparseUrl ⟨"https", some n, p⟩) "https://" = true := rfl

/-- Joining anything against an absolute http(s) base either returns the
reference unchanged (foreign scheme) or produces an absolute http(s)
URL. -/
theorem urljoin_http_base (b u : String) (hb0 : ¬ b = "") (hu0 : ¬ u = "")
    (hsch : (parseUrl b).scheme = "http" ∨ (parseUrl b).scheme = "https")
    (nb : String) (hnb : (parseUrl b).netloc = some nb) :
    urljoin b u = u ∨ startsWithS (urljoin b u) "http://" = true ∨
      startsWithS (urljoin b u) "https://" = true := by
  rw [urljoin, if_neg hb0, if_neg hu0]
  by_cases hrs : (parseUrl u).scheme ≠ "" ∧ (parseUrl u).scheme ≠ (parseUrl b).scheme
  · rw [if_pos hrs]
    exact Or.inl rfl
  · rw [if_neg hrs]
    have hs2 : (if (parseUrl u).scheme ≠ "" then (parseUrl u).scheme
        else (parseUrl b).scheme) = "http" ∨
        (if (parseUrl u).scheme ≠ "" then (parseUrl u).scheme
        else (parseUrl b).scheme) = "https" := by
      by_cases h1 : (parseUrl u).scheme = ""
      · simpa [h1] using hsch
      · have h2 : (parseUrl u).scheme = (parseUrl b).scheme := by
          by_contra hne
          exact hrs ⟨h1, hne⟩
        simpa [h1, h2] using hsch
    rcases hrn : (parseUrl u).netloc with _ | n
    · simp only [hrn]
      by_cases hp : (parseUrl u).path = ""
      · rw [if_pos hp, hnb]
        rcases hs2 with h | h <;> rw [h]
        · exact Or.inr (Or.inl (startsWithS_unparse_http _ _))
        · exact Or.inr (Or.inr (startsWithS_unparse_https _ _))
      · rw [if_neg hp, hnb]
        rcases hs2 with h | h <;> rw [h]
        · exact Or.inr (Or.inl (startsWithS_unparse_http _ _))
        · exact Or.inr (Or.inr (startsWithS_unparse_https _ _))
    · simp only [hrn]
      rcases hs2 with h | h <;> rw [h]
      · exact Or.inr (Or.inl (startsWithS_unparse_http _ _))
      · exact Or.inr (Or.inr (startsWithS_unparse_https _ _))

/-- Claim C9 (counterexample): with the relative base URL `a/b`, resolving
the relative URL `c` gives `a/c`; resolving that result again merges the
base path a second time, giving `a/a/c` — resolution is not a fixed point
for every base URL. -/
theorem C9_counterexample :
    resolve_url "c" (some "a/b") = "a/c" ∧
    resolve_url (resolve_url "c" (some "a/b")) (some "a/b") = "a/a/c" ∧
    ("a/a/c" : String) ≠ "a/c" :=
  ⟨rfl, rfl, by decide⟩

/-- Claim C9 (amended): resolution is a fixed point whenever the base is
absent or an absolute http(s) URL; for every base, an already absolute
(`http://`, `https://`) or protocol-relative (`//`) URL is returned
unchanged, and with no base every URL is returned unchanged. -/
theorem C9_amended_fixed_point (u b : String)
    (hb : startsWithS b "http://" = true ∨ startsWithS b "https://" = true) :
    resolve_url (resolve_url u (some b)) (some b) = resolve_url u (some b) ∧
    (∀ v bb, startsWithS v "http://" = true ∨ startsWithS v "https://" = true ∨
        startsWithS v "//" = true → resolve_url v bb = v) ∧
    (∀ v, resolve_url v none = v) := by
  have habs : ∀ v (bb : Option String), startsWithS v "http://" = true ∨
      startsWithS v "https://" = true ∨ startsWithS v "//" = true →
      resolve_url v bb = v := by
    intro v bb hv
    cases bb with
    | none => rfl
    | some b' =>
      rw [resolve_url, if_neg]
      rintro ⟨-, -, hno⟩
      exact hno hv
  refine ⟨?_, habs, fun v => rfl⟩
  have hparse : (parseUrl b).scheme = "http" ∨ (parseUrl b).scheme = "https" := by
    rcases hb with h | h
    · exact Or.inl (parseUrl_of_http b h).1
    · exact Or.inr (parseUrl_of_https b h).1
  have hnet : ∃ nb, (parseUrl b).netloc = some nb := by
    rcases hb with h | h
    · exact (parseUrl_of_http b h).2
    · exact (parseUrl_of_https b h).2
  obtain ⟨nb, hnb⟩ := hnet
  by_cases hg : b ≠ "" ∧ u ≠ "" ∧ ¬(startsWithS u "http://" = true ∨
      startsWithS u "https://" = true ∨ startsWithS u "//" = true)
  · have hres : resolve_url u (some b) = urljoin b u := by
      rw [resolve_url, if_pos hg]
    rcases urljoin_http_base b u hg.1 hg.2.1 hparse nb hnb with hju | hx | hx
    · rw [hres, hju, hres]
      exact hju
    · rw [hres]
      exact habs _ _ (Or.inl hx)
    · rw [hres]
      exact habs _ _ (Or.inr (Or.inl hx))
  · have hres : resolve_url u (some b) = u := by
      rw [resolve_url, if_neg hg]
    rw [hres]
    exact hres

/-- Closed instance of the amended C9 theorem. -/
theorem C9_witness :
    resolve_url (resolve_url "img/x.png" (some "http://host/dir/page"))
      (some "http://host/dir/page") =
      resolve_url "img/x.png" (some "http://host/dir/page") :=
  (C9_amended_fixed_point "img/x.png" "http://host/dir/page" (Or.inl rfl)).1

end FBScraper
